import Mathlib

/-!
Verification development for the task-master-sync repository.

The definitions below are a shallow embedding of the synchronization core:
the sync state manager (src/sync/syncStateManager.js), the push reconciler
(src/sync/pushSyncLogic.js), the pull reconciler (pullSyncLogic), and the
Monday.com API client retry/batch machinery (mondayClient).  JavaScript
objects are modelled as insertion-ordered association lists, JS exceptions
as `Except String`, and the mutable process/file state as an explicit
`World` record threaded through every operation.  Timestamps are `Nat`
milliseconds; within a single run the clock (`World.now`) is constant.
-/

namespace TMSync

/-- Decidable equality for `Except`, so that concrete runs can be checked
by `decide`. -/
instance {ε α : Type} [DecidableEq ε] [DecidableEq α] : DecidableEq (Except ε α)
  | .error e, .error e' =>
      if h : e = e' then .isTrue (by rw [h]) else .isFalse (by simp [h])
  | .error _, .ok _ => .isFalse (by simp)
  | .ok _, .error _ => .isFalse (by simp)
  | .ok a, .ok a' =>
      if h : a = a' then .isTrue (by rw [h]) else .isFalse (by simp [h])

/-! ### JS object helpers

A JavaScript string-keyed object is an insertion-ordered association list
with unique keys.  `alSet` models `obj[k] = v` (update in place if the key
exists, else append), `alGet?` models `obj[k]` (`none` = `undefined`),
`alErase` models `delete obj[k]`. -/

def alGet? {β : Type} (l : List (String × β)) (k : String) : Option β :=
  match l.find? (fun p => p.1 == k) with
  | some p => some p.2
  | none => none

def alSet {β : Type} (l : List (String × β)) (k : String) (v : β) : List (String × β) :=
  match l with
  | [] => [(k, v)]
  | (k0, v0) :: rest => if k0 == k then (k0, v) :: rest else (k0, v0) :: alSet rest k v

def alErase {β : Type} (l : List (String × β)) (k : String) : List (String × β) :=
  match l with
  | [] => []
  | (k0, v0) :: rest => if k0 == k then rest else (k0, v0) :: alErase rest k

/-- JS truthiness of an optional string field (`undefined`, `null` and the
empty string are falsy). -/
def strTruthy : Option String → Bool
  | none => false
  | some s => s ≠ ""

/-! ### Data model: local tasks -/

/-- A TaskMaster task record as stored in tasks.json.  An absent/falsy
`id` is modelled by the empty string; optional free-text fields are
`Option String`. -/
structure Task where
  id : String
  title : String
  status : Option String
  priority : Option String
  dependencies : List String
  description : Option String
  details : Option String
  testStrategy : Option String
  complexity : Option String
  monday_item_id : Option String
  subtasks : List String
deriving Repr, DecidableEq

/-- A task with only a title; used to build records field by field. -/
def Task.base (id title : String) : Task :=
  ⟨id, title, none, none, [], none, none, none, none, none, []⟩

/-! ### Data model: sync state (syncStateManager.js) -/

/-- An entry of the legacy `items` map of the persisted sync state. -/
structure ItemData where
  taskmasterTaskId : String
  timestamp : Nat
deriving Repr, DecidableEq

/-- An entry of the `taskMappings` list.  `taskId` and `mondayUpdateId`
are the alternative fields written by `storeUpdateIdForTask`; entries
produced by `updateSyncedTimestamp` leave them absent. -/
structure MappingEntry where
  mondayItemId : String
  taskmasterTaskId : String
  timestamp : Option Nat
  taskId : Option String
  mondayUpdateId : Option String
  lastSynced : Option Nat
deriving Repr, DecidableEq

def MappingEntry.mk3 (mid tid : String) (ts : Nat) : MappingEntry :=
  ⟨mid, tid, some ts, none, none, none⟩

/-- The persisted sync state: version tag, global lastSync, the
`taskMappings` entry list, the two derived indexes, and the legacy
`items` map (optional: files written by other tools may lack it;
`readSyncState` only defaults the other three fields). -/
structure SyncState where
  version : String
  lastSync : Option Nat
  taskMappings : List MappingEntry
  mondayToTaskMaster : List (String × String)
  taskMasterToMonday : List (String × List String)
  items : Option (List (String × ItemData))
deriving Repr, DecidableEq

def getEmptySyncState : SyncState :=
  ⟨"1.0", none, [], [], [], some []⟩

/-- The persisted sync state file: absent, unparseable, or parsed. -/
inductive StateFile
  | missing
  | corrupt
  | good (s : SyncState)
deriving Repr, DecidableEq

/-! ### Data model: the Monday.com board -/

/-- A column value as written by the push reconciler
(`mapTaskToColumnValues`): either a plain string (text columns) or a
`{ label: ... }` object (status columns). -/
inductive ColVal
  | text (s : String)
  | label (s : String)
deriving Repr, DecidableEq

/-- A column value as read back by the pull reconciler
(`item.column_values` entries with their `text` rendering). -/
structure Cell where
  id : String
  text : String
deriving Repr, DecidableEq

/-- An item on the Monday.com board.  `columnVals` is the write view used
by push mutations, `cells` the read view consumed by pull; the server-side
translation between the two is outside the repository and not modelled. -/
structure BoardItem where
  id : String
  name : String
  group : String
  columnVals : List (String × ColVal)
  cells : List Cell
  updated_at : Nat
deriving Repr, DecidableEq

/-! ### The world

All shared mutable state touched by one process: the tasks.json content,
the remote board, the persisted sync state file, the state manager's
in-memory cache, the `.lock` file, the clock, the fresh-id counter for
created items, and the count of remote API calls made so far (used to
index the failure oracle of the push environment). -/
structure World where
  tasksFile : List Task
  board : List BoardItem
  groups : List String
  stateFile : StateFile
  cache : Option SyncState
  cacheTime : Option Nat
  lockHeld : Bool
  now : Nat
  freshN : Nat
  apiCalls : Nat
deriving Repr, DecidableEq

/-! ### File locking (acquireLock / releaseLock)

`acquireLock` creates the `.lock` file with an exclusive flag.  The lock
is not reentrant: the in-memory early return compares the existing lock id
against a freshly generated uuid and can never hit, so a nested acquire in
the same process spins until the timeout and throws
`Failed to acquire lock` (the stale-lock reclaim compares against the same
timeout and is checked after the timeout throw, so in-process it does not
fire first; the repository's own unit tests pin this outcome).  The model
resolves the lock deterministically: acquiring a held lock throws. -/

def acquireLock (w : World) : Except String World :=
  if w.lockHeld then .error "Failed to acquire lock"
  else .ok { w with lockHeld := true }

def releaseLock (w : World) : World :=
  { w with lockHeld := false }

/-! ### writeSyncState

Mirrors `writeSyncState(syncState)`: defaults a missing `items` field,
stamps `lastSync` with the current time (mutating the caller's object,
which the third component of the result reflects), then acquires the
lock, writes via temp-file + atomic move, updates the in-memory cache,
and releases the lock.  The invalid-argument throw for non-objects cannot
arise in the typed model. -/
def stampState (now : Nat) (s : SyncState) : SyncState :=
  { s with items := some (s.items.getD []), lastSync := some now }

def writeSyncState (w : World) (s0 : SyncState) :
    Except String Unit × World × SyncState :=
  let s1 : SyncState := stampState w.now s0
  match acquireLock w with
  | .error e => (.error e, w, s1)
  | .ok w1 =>
      let w2 := { w1 with stateFile := .good s1, cache := some s1,
                          cacheTime := some w1.now }
      (.ok (), releaseLock w2, s1)

/-- The short-TTL (5s) cache check of `readSyncState`. -/
def cacheValid (w : World) : Bool :=
  match w.cache, w.cacheTime with
  | some _, some t => w.now - t < 5000
  | _, _ => false

/-! ### readSyncState

Mirrors `readSyncState(bypassCache = false)`.  The cache is consulted
first; the lock is then acquired outside the try block (so a lock
failure propagates).  A missing file leads to an attempted
`writeSyncState(newSyncState)` while the read still holds the
non-reentrant lock, so the nested acquire throws; the surrounding catch
swallows the error, releases the lock, and returns a fresh
`getEmptySyncState()`; the file is not created.  Unparseable content
throws in `JSON.parse` and lands in the same catch.  A parsed file has
its three newer fields defaulted (always present in the typed model) and
populates the cache. -/
def readSyncState (w : World) : Except String SyncState × World :=
  if cacheValid w then
    (.ok (w.cache.getD getEmptySyncState), w)
  else
    match acquireLock w with
    | .error e => (.error e, w)
    | .ok w1 =>
        match w1.stateFile with
        | .missing =>
            match writeSyncState w1 getEmptySyncState with
            | (.ok _, w2, s1) => (.ok s1, releaseLock w2)
            | (.error _, w2, _) => (.ok getEmptySyncState, releaseLock w2)
        | .corrupt => (.ok getEmptySyncState, releaseLock w1)
        | .good s =>
            let w2 := releaseLock w1
            (.ok s, { w2 with cache := some s, cacheTime := some w2.now })

/-! ### Remaining mapping store operations -/

/-- Mirrors `getLastSyncedTimestamp(mondayItemId)`: the legacy `items`
map is consulted first, then `taskMappings` (whose `timestamp` must be
truthy, so a stored 0 falls through to null). -/
def getLastSyncedTimestamp (w : World) (mid : String) :
    Except String (Option Nat) × World :=
  match readSyncState w with
  | (.error e, w1) => (.error e, w1)
  | (.ok s, w1) =>
      match s.items with
      | some its =>
          match alGet? its mid with
          | some d => (.ok (some d.timestamp), w1)
          | none => (.ok (lastTsFromMappings s mid), w1)
      | none => (.ok (lastTsFromMappings s mid), w1)
where
  lastTsFromMappings (s : SyncState) (mid : String) : Option Nat :=
    match s.taskMappings.find? (fun m => m.mondayItemId == mid) with
    | some m =>
        match m.timestamp with
        | some ts => if ts == 0 then none else some ts
        | none => none
    | none => none

/-- Replace the fields of the first `taskMappings` entry with the given
`mondayItemId` (the JS code mutates the object returned by `find`). -/
def replaceFirstMapping (l : List MappingEntry) (mid tid : String) (ts : Nat) :
    List MappingEntry :=
  match l with
  | [] => []
  | m :: rest =>
      if m.mondayItemId == mid then
        { m with taskmasterTaskId := tid, timestamp := some ts } :: rest
      else m :: replaceFirstMapping rest mid tid ts

/-- The state transformation of `updateSyncedTimestamp`: upsert the
legacy `items` entry, upsert the `taskMappings` entry, re-point
`mondayToTaskMaster`, and append to `taskMasterToMonday` when absent. -/
def updStatePure (s : SyncState) (mid tid : String) (ts : Nat) : SyncState :=
  let items := alSet (s.items.getD []) mid ⟨tid, ts⟩
  let tmaps :=
    if (s.taskMappings.find? (fun m => m.mondayItemId == mid)).isSome then
      replaceFirstMapping s.taskMappings mid tid ts
    else
      s.taskMappings ++ [MappingEntry.mk3 mid tid ts]
  let m2t := alSet s.mondayToTaskMaster mid tid
  let t2m :=
    match alGet? s.taskMasterToMonday tid with
    | none => alSet s.taskMasterToMonday tid []
    | some _ => s.taskMasterToMonday
  let cur := (alGet? t2m tid).getD []
  let t2m := if cur.contains mid then t2m else alSet t2m tid (cur ++ [mid])
  { s with items := some items, taskMappings := tmaps,
           mondayToTaskMaster := m2t, taskMasterToMonday := t2m }

/-- Mirrors `updateSyncedTimestamp(mondayItemId, taskmasterTaskId,
timestamp)`: read, transform by `updStatePure`, persist. -/
def updateSyncedTimestamp (w : World) (mid tid : String) (ts : Nat) :
    Except String Unit × World :=
  match readSyncState w with
  | (.error e, w1) => (.error e, w1)
  | (.ok s, w1) =>
      match writeSyncState w1 (updStatePure s mid tid ts) with
      | (.ok _, w2, _) => (.ok (), w2)
      | (.error e, w2, _) => (.error e, w2)

/-- Mirrors `removeSyncedItem(mondayItemId)`: the legacy branch removes
the `items` entry and cleans both indexes; the `taskMappings` branch
removes the entry list element; the state is persisted only if either
branch removed something. -/
def removeSyncedItem (w : World) (mid : String) :
    Except String Bool × World :=
  match readSyncState w with
  | (.error e, w1) => (.error e, w1)
  | (.ok s, w1) =>
      let step1 :=
        match s.items with
        | some its =>
            match alGet? its mid with
            | some d =>
                let s1 := { s with items := some (alErase its mid) }
                let s2 := { s1 with mondayToTaskMaster :=
                              alErase s1.mondayToTaskMaster mid }
                let s3 :=
                  if d.taskmasterTaskId ≠ "" then
                    match alGet? s2.taskMasterToMonday d.taskmasterTaskId with
                    | some mids =>
                        let mids' := mids.erase mid
                        if mids.contains mid then
                          let t2m :=
                            if mids' == [] then
                              alErase s2.taskMasterToMonday d.taskmasterTaskId
                            else
                              alSet s2.taskMasterToMonday d.taskmasterTaskId mids'
                          { s2 with taskMasterToMonday := t2m }
                        else s2
                    | none => s2
                  else s2
                (s3, true)
            | none => (s, false)
        | none => (s, false)
      let s4 := step1.1
      let existed1 := step1.2
      let idx := s4.taskMappings.findIdx? (fun m => m.mondayItemId == mid)
      let step2 :=
        match idx with
        | some i => ({ s4 with taskMappings := s4.taskMappings.eraseIdx i }, true)
        | none => (s4, existed1)
      let s5 := step2.1
      let existed := existed1 || step2.2
      if existed then
        match writeSyncState w1 s5 with
        | (.ok _, w2, _) => (.ok true, w2)
        | (.error e, w2, _) => (.error e, w2)
      else (.ok false, w1)

/-- The pure lookup of `getMondayItemIdsForTask`: the legacy `items`
scan wins when non-empty, else the `taskMasterToMonday` index (whose
stored empty array is truthy and returned as is). -/
def mappedIdsPure (s : SyncState) (tid : String) : List String :=
  let fallback :=
    match alGet? s.taskMasterToMonday tid with
    | some l => l
    | none => []
  match s.items with
  | some its =>
      let old := (its.filter (fun p => p.2.taskmasterTaskId == tid)).map (·.1)
      if old ≠ [] then old else fallback
  | none => fallback

/-- Mirrors `getMondayItemIdsForTask(taskmasterTaskId)`. -/
def getMondayItemIdsForTask (w : World) (tid : String) :
    Except String (List String) × World :=
  match readSyncState w with
  | (.error e, w1) => (.error e, w1)
  | (.ok s, w1) => (.ok (mappedIdsPure s tid), w1)

/-- The pure lookup of `getUpdateIdForTask`: matches entries by their
alternative `taskId` field (set only by `storeUpdateIdForTask`). -/
def updateIdPure (s : SyncState) (tid mid : String) : Option String :=
  match s.taskMappings.find?
      (fun m => m.taskId == some tid && m.mondayItemId == mid) with
  | some m =>
      match m.mondayUpdateId with
      | some u => if u == "" then none else some u
      | none => none
  | none => none

/-- Mirrors `getUpdateIdForTask(taskId, mondayItemId)`. -/
def getUpdateIdForTask (w : World) (tid mid : String) :
    Except String (Option String) × World :=
  match readSyncState w with
  | (.error e, w1) => (.error e, w1)
  | (.ok s, w1) => (.ok (updateIdPure s tid mid), w1)

/-- Mirrors `removeUpdateIdForTask(taskId, mondayItemId)`: deletes the
`mondayUpdateId` of the matching entry (matched by the alternative
`taskId` field), stamping `lastSynced`, and persists; returns false when
no entry with an update id matches. -/
def removeUpdateIdForTask (w : World) (tid mid : String) :
    Except String Bool × World :=
  match readSyncState w with
  | (.error e, w1) => (.error e, w1)
  | (.ok s, w1) =>
      match s.taskMappings.findIdx?
          (fun m => m.taskId == some tid && m.mondayItemId == mid) with
      | none => (.ok false, w1)
      | some i =>
          match s.taskMappings.get? i with
          | none => (.ok false, w1)
          | some m =>
              if m.mondayUpdateId.isSome then
                let m' := { m with mondayUpdateId := none,
                                   lastSynced := some w1.now }
                let s' := { s with taskMappings := s.taskMappings.set i m' }
                match writeSyncState w1 s' with
                | (.ok _, w2, _) => (.ok true, w2)
                | (.error e, w2, _) => (.error e, w2)
              else (.ok false, w1)

/-- Mirrors `removeMondayItem(mondayItemId)`: throws on a falsy id;
returns false when the legacy `items` map lacks the id; otherwise removes
the entry from `items`, both indexes and `taskMappings`, and persists. -/
def removeMondayItem (w : World) (mid? : Option String) :
    Except String Bool × World :=
  match mid? with
  | none => (.error "Monday item ID is required", w)
  | some mid =>
      if mid = "" then (.error "Monday item ID is required", w)
      else
        match readSyncState w with
        | (.error e, w1) => (.error e, w1)
        | (.ok s, w1) =>
            match s.items with
            | none => (.ok false, w1)
            | some its =>
                match alGet? its mid with
                | none => (.ok false, w1)
                | some d =>
                    let tid := d.taskmasterTaskId
                    let s1 := { s with items := some (alErase its mid) }
                    let s2 := { s1 with mondayToTaskMaster :=
                                  alErase s1.mondayToTaskMaster mid }
                    let s3 :=
                      if tid ≠ "" then
                        match alGet? s2.taskMasterToMonday tid with
                        | some mids =>
                            if mids.contains mid then
                              let mids' := mids.erase mid
                              let t2m :=
                                if mids' == [] then
                                  alErase s2.taskMasterToMonday tid
                                else
                                  alSet s2.taskMasterToMonday tid mids'
                              { s2 with taskMasterToMonday := t2m }
                            else s2
                        | none => s2
                      else s2
                    let s4 :=
                      match s3.taskMappings.findIdx?
                          (fun m => m.mondayItemId == mid) with
                      | some i => { s3 with taskMappings :=
                                      s3.taskMappings.eraseIdx i }
                      | none => s3
                    match writeSyncState w1 s4 with
                    | (.ok _, w2, _) => (.ok true, w2)
                    | (.error e, w2, _) => (.error e, w2)

/-- Mirrors `cleanupOldEntries(maxAgeMs)`: sweeps old legacy `items`
entries, then old `taskMappings` entries (removing their index traces),
counting both sweeps; persists only when something was removed. -/
def cleanupOldEntries (w : World) (maxAgeMs : Nat) :
    Except String Nat × World :=
  match readSyncState w with
  | (.error e, w1) => (.error e, w1)
  | (.ok s, w1) =>
      let now := w1.now
      let oldItemKeys : List String :=
        match s.items with
        | some its => (its.filter (fun p => now - p.2.timestamp > maxAgeMs)).map (·.1)
        | none => []
      let s1 : SyncState :=
        match s.items with
        | some its =>
            { s with items := some (oldItemKeys.foldl (fun l k => alErase l k) its) }
        | none => s
      let count1 := oldItemKeys.length
      let marked : List MappingEntry := s1.taskMappings.filter (fun m =>
        match m.timestamp with
        | some ts => ts ≠ 0 && now - ts > maxAgeMs
        | none => false)
      let cleanupOne : SyncState → MappingEntry → SyncState := fun st m =>
        let st1 :=
          if m.mondayItemId ≠ "" &&
              (alGet? st.mondayToTaskMaster m.mondayItemId).isSome then
            { st with mondayToTaskMaster :=
                alErase st.mondayToTaskMaster m.mondayItemId }
          else st
        if m.taskmasterTaskId ≠ "" then
          match alGet? st1.taskMasterToMonday m.taskmasterTaskId with
          | some mids =>
              if mids.contains m.mondayItemId then
                let mids' := mids.erase m.mondayItemId
                let t2m :=
                  if mids' == [] then
                    alErase st1.taskMasterToMonday m.taskmasterTaskId
                  else
                    alSet st1.taskMasterToMonday m.taskmasterTaskId mids'
                { st1 with taskMasterToMonday := t2m }
              else st1
          | none => st1
        else st1
      let s2 := marked.reverse.foldl cleanupOne s1
      let s3 := { s2 with taskMappings :=
        s2.taskMappings.filter (fun m =>
          !(match m.timestamp with
            | some ts => ts ≠ 0 && now - ts > maxAgeMs
            | none => false)) }
      let count := count1 + marked.length
      if count > 0 then
        match writeSyncState w1 s3 with
        | (.ok _, w2, _) => (.ok count, w2)
        | (.error e, w2, _) => (.error e, w2)
      else (.ok count, w1)

/-- The parsed sync state currently persisted in a world (empty when the
file is missing or corrupt). -/
def stateOf (w : World) : SyncState :=
  match w.stateFile with
  | .good s => s
  | _ => getEmptySyncState

/-! ### Derived-index recomputation

Modelled from the spec: the two derived indexes (remoteId to localId and
localId to list of remoteIds) that "must always be recomputable from, and
consistent with, the entry list"; the source maintains them incrementally
and has no rebuild function, so the reference recomputation follows the
spec's words. -/

def recomputeMondayToTaskMaster (l : List MappingEntry) : List (String × String) :=
  l.foldl (fun acc m => alSet acc m.mondayItemId m.taskmasterTaskId) []

def recomputeTaskMasterToMonday (l : List MappingEntry) : List (String × List String) :=
  l.foldl (fun acc m =>
    alSet acc m.taskmasterTaskId
      ((alGet? acc m.taskmasterTaskId).getD [] ++ [m.mondayItemId])) []

/-! ### Monday.com API client: executeQuery retry loop (mondayClient.js)

An attempt oracle `att : Nat → Except String ApiResp` gives the outcome of
the k-th transport attempt (`Except.error` models a thrown/rejected call).
A returned response whose `errors` list is non-empty with no `data` is
converted to a thrown error inside the loop; otherwise the response is
returned as is (partial success). -/

structure ApiResp where
  data : Option (List (String × String))
  errors : List String
deriving Repr, DecidableEq

def apiErrMsg (errs : List String) : String :=
  "Monday.com API errors: " ++ String.intercalate ", " errs

/-- The in-loop success check of `executeQuery`: a response with errors
and no data throws; anything else returned by the transport succeeds. -/
def attemptOutcome (r : Except String ApiResp) : Except String ApiResp :=
  match r with
  | .ok resp =>
      if resp.errors ≠ [] && resp.data.isNone then .error (apiErrMsg resp.errors)
      else .ok resp
  | .error e => .error e

/-- The retry loop of `executeQuery`, recursing on the remaining attempt
budget.  Returns the final outcome, the list of backoff delays awaited
(retryDelayMs * 2^k after the k-th failed attempt, none after the last),
and the number of attempts made.  When the budget is exhausted the last
error is thrown. -/
def executeQueryGo (d : Nat) (att : Nat → Except String ApiResp) (i : Nat) :
    Nat → Option String → Except String ApiResp × List Nat × Nat
  | 0, lastErr => (.error (lastErr.getD "no attempts"), [], i)
  | fuel + 1, _ =>
      match attemptOutcome (att i) with
      | .ok r => (.ok r, [], i + 1)
      | .error e =>
          if fuel = 0 then (.error e, [], i + 1)
          else
            let next := executeQueryGo d att (i + 1) fuel (some e)
            (next.1, d * 2 ^ i :: next.2.1, next.2.2)

/-- `executeQuery(query, variables)` with the client's retry settings.
The query text does not influence the outcome; the transport is the
attempt oracle. -/
def executeQuery (maxRetries retryDelayMs : Nat)
    (att : Nat → Except String ApiResp) :
    Except String ApiResp × List Nat × Nat :=
  executeQueryGo retryDelayMs att 0 maxRetries none

/-- `executeQuery` with the default settings (3 attempts, 1000ms initial
delay). -/
def executeQueryDefault (att : Nat → Except String ApiResp) :
    Except String ApiResp × List Nat × Nat :=
  executeQuery 3 1000 att

/-- The k-th attempt, as filtered by the in-loop check, fails. -/
def attFails (att : Nat → Except String ApiResp) (k : Nat) : Prop :=
  ∃ e, attemptOutcome (att k) = .error e

instance (att : Nat → Except String ApiResp) (k : Nat) :
    Decidable (attFails att k) := by
  unfold attFails
  match attemptOutcome (att k) with
  | .ok r => exact .isFalse (by simp)
  | .error e => exact .isTrue ⟨e, rfl⟩

/-! ### Monday.com API client: mutation batching (addToBatch / flushBatch) -/

/-- One queued mutation with the completion-handle index assigned by
`addToBatch` (its position in the queue at enqueue time). -/
structure BatchOp where
  query : String
  vars : List (String × String)
  index : Nat
deriving Repr, DecidableEq

/-- `addToBatch(query, variables)`: appends the operation with its index
and returns the handle (the index).  The auto-flush at `maxBatchSize` is
driven by the caller in this model. -/
def addToBatch (queue : List BatchOp) (q : String)
    (vars : List (String × String)) : List BatchOp × Nat :=
  (queue ++ [⟨q, vars, queue.length⟩], queue.length)

/-- Approximation of the `/mutation\s+(\w+)/` match: the word following
the first `"mutation "` occurrence. -/
def extractMutationName (q : String) : Option String :=
  match q.splitOn "mutation " with
  | _ :: r :: _ =>
      let word := String.mk (r.toList.takeWhile (fun c => c.isAlphanum || c == '_'))
      if word = "" then none else some word
  | _ => none

/-- The per-operation namespacing of `flushBatch`: rename the mutation,
concatenate the queries, and suffix the variable names with the operation
index.  (As in the source, the in-query `$var` renaming is applied to a
local copy after it was already appended, so it never reaches the
combined query.) -/
def combineBatch (batch : List BatchOp) : String × List (String × String) :=
  batch.foldl
    (fun acc op =>
      let nm := (extractMutationName op.query).getD ("Mutation_" ++ toString op.index)
      let uniq := nm ++ "_" ++ toString op.index
      let updated := op.query  -- renamed header; the text is not further inspected
      let vars := op.vars.map (fun p => (p.1 ++ "_" ++ toString op.index, p.2))
      (acc.1 ++ "mutation " ++ uniq ++ updated, acc.2 ++ vars))
    ("", [])

/-- The key under which `flushBatch` looks up one operation's slice of the
combined response. -/
def resultKeyFor (current : List BatchOp) (idx : Nat) : String :=
  match current.get? idx with
  | some op =>
      match extractMutationName op.query with
      | some nm => nm ++ "_" ++ toString idx
      | none => "Mutation_" ++ toString idx
  | none => "Mutation_" ++ toString idx

/-- `flushBatch()`: snapshot and clear the queue, execute the combined
query once through `executeQuery`, then either resolve every handle with
its demultiplexed slice (null when absent) or, when the single round trip
fails, reject every handle of the snapshot with that same error.  Returns
the per-handle settlements and the new (empty) queue. -/
def flushBatch (att : Nat → Except String ApiResp) (queue : List BatchOp) :
    List (Nat × Except String (Option String)) × List BatchOp :=
  if queue.isEmpty then ([], queue)
  else
    let current := queue
    let _combined := combineBatch current
    match (executeQuery 3 1000 att).1 with
    | .error e => (current.map (fun op => (op.index, .error e)), [])
    | .ok r =>
        (current.map (fun op =>
          let key := resultKeyFor current op.index
          let v : Option String :=
            match r.data with
            | some d =>
                match alGet? d key with
                | some s => some s
                | none => none
            | none => none
          (op.index, .ok v)), [])

/-! ### Push reconciler (pushSyncLogic.js)

The push environment carries the failure oracle for remote calls
(indexed by the running call counter `World.apiCalls`; `some msg` makes
the call throw `msg`) and the possible failure of reading tasks.json.
The state-manager file operations themselves are assumed reliable: their
only failure mode in the model is the lock, as in the source. -/

structure PushEnv where
  apiFail : Nat → Option String
  readTasksFail : Option String

/-- Consume one remote-call slot of the failure oracle. -/
def apiStep (env : PushEnv) (w : World) : Option String × World :=
  (env.apiFail w.apiCalls, { w with apiCalls := w.apiCalls + 1 })

/-- `mondayClient.getItems(boardId)`: one query returning the board's
items. -/
def clientGetItems (env : PushEnv) (w : World) :
    Except String (List BoardItem) × World :=
  match apiStep env w with
  | (some e, w1) => (.error e, w1)
  | (none, w1) => (.ok w1.board, w1)

/-- `mondayClient.getBoardGroups(boardId)`: one query returning the
board's group ids. -/
def clientGetBoardGroups (env : PushEnv) (w : World) :
    Except String (List String) × World :=
  match apiStep env w with
  | (some e, w1) => (.error e, w1)
  | (none, w1) => (.ok w1.groups, w1)

/-- `mondayClient.getItem(itemId)`: throws `Item not found` when the
response has no matching item. -/
def clientGetItem (env : PushEnv) (w : World) (iid : String) :
    Except String BoardItem × World :=
  match apiStep env w with
  | (some e, w1) => (.error e, w1)
  | (none, w1) =>
      match w1.board.find? (fun it => it.id == iid) with
      | some it => (.ok it, w1)
      | none => (.error ("Item not found: " ++ iid), w1)

/-- The fresh server-assigned item id for the n-th created item of this
process; the encoding is injective by construction (length-based), which
stands in for the server's guarantee of unique ids. -/
def freshId (n : Nat) : String :=
  String.mk ('m' :: List.replicate n 'x')

/-- `mondayClient.createItem(boardId, groupId, itemName, columnValues)`:
appends a new item with a fresh id. -/
def clientCreateItem (env : PushEnv) (w : World) (groupId name : String)
    (cv : List (String × ColVal)) : Except String BoardItem × World :=
  match apiStep env w with
  | (some e, w1) => (.error e, w1)
  | (none, w1) =>
      let it : BoardItem := ⟨freshId w1.freshN, name, groupId, cv, [], w1.now⟩
      (.ok it, { w1 with board := w1.board ++ [it], freshN := w1.freshN + 1 })

/-- `mondayClient.updateItemName(itemId, newName)`: throws when the
mutation returns no data (item absent). -/
def clientUpdateItemName (env : PushEnv) (w : World) (iid newName : String) :
    Except String BoardItem × World :=
  match apiStep env w with
  | (some e, w1) => (.error e, w1)
  | (none, w1) =>
      match w1.board.find? (fun it => it.id == iid) with
      | none => (.error ("Failed to update name for item " ++ iid), w1)
      | some it =>
          let it' := { it with name := newName, updated_at := w1.now }
          (.ok it',
           { w1 with board := w1.board.map (fun b => if b.id == iid then
               { b with name := newName, updated_at := w1.now } else b) })

/-- `mondayClient.updateItemColumnValues(itemId, boardId, columnValues)`:
merges the given column values into the item, throwing when no data is
returned (item absent). -/
def clientUpdateItemColumnValues (env : PushEnv) (w : World) (iid : String)
    (cv : List (String × ColVal)) : Except String BoardItem × World :=
  match apiStep env w with
  | (some e, w1) => (.error e, w1)
  | (none, w1) =>
      match w1.board.find? (fun it => it.id == iid) with
      | none => (.error "Failed to update item column values: no data returned", w1)
      | some it =>
          let merge := fun (l : List (String × ColVal)) =>
            cv.foldl (fun acc p => alSet acc p.1 p.2) l
          let it' := { it with columnVals := merge it.columnVals,
                               updated_at := w1.now }
          (.ok it',
           { w1 with board := w1.board.map (fun b => if b.id == iid then
               { b with columnVals := merge b.columnVals,
                        updated_at := w1.now } else b) })

/-- `mondayClient.deleteItem(itemId)`: never throws; returns false on any
failure or when the response carries no deleted id. -/
def clientDeleteItem (env : PushEnv) (w : World) (iid : String) :
    Bool × World :=
  match apiStep env w with
  | (some _, w1) => (false, w1)
  | (none, w1) =>
      if w1.board.any (fun it => it.id == iid) then
        (true, { w1 with board := w1.board.filter (fun it => !(it.id == iid)) })
      else (false, w1)

/-! ### Column mapping (mapTaskToColumnValues) -/

/-- The `column_mappings` table from the configuration. -/
structure ColumnMapping where
  taskId : Option String
  status : Option String
  priority : Option String
  dependencies : Option String
  complexity : Option String
  description : Option String
  details : Option String
  testStrategy : Option String
deriving Repr, DecidableEq

/-- Push-side configuration: column mappings, status/priority label
tables, the task-complexity report data (already mapped to Monday
complexity ids by `readComplexityReport`/`getComplexityLabel`), and the
board/group settings. -/
structure PushConfig where
  columnMapping : ColumnMapping
  status_mappings : List (String × String)
  priority_mappings : List (String × String)
  complexityMap : List (String × String)
  mondayBoardId : String
  mondayGroupIds : List String
deriving Repr, DecidableEq

/-- One optional column entry: present when the mapped column id is
truthy and a value was produced. -/
def entry? (col : Option String) (v : Option ColVal) : List (String × ColVal) :=
  match col, v with
  | some c, some cv => if c ≠ "" then [(c, cv)] else []
  | _, _ => []

/-- `mapping[key] || key` lookup used for status and priority labels. -/
def labelFor (table : List (String × String)) (k : String) : String :=
  match alGet? table k with
  | some v => if v = "" then k else v
  | none => k

/-- A truthy optional text field rendered as a text column value. -/
def optText (f : Option String) : Option ColVal :=
  match f with
  | some s => if s ≠ "" then some (.text s) else none
  | none => none

/-- Mirrors `mapTaskToColumnValues(task)`: builds the column-value object
in source order (taskId, status, priority, dependencies, complexity,
description, details, testStrategy), skipping falsy fields. -/
def mapTaskToColumnValues (cfg : PushConfig) (t : Task) :
    List (String × ColVal) :=
  let cm := cfg.columnMapping
  let taskIdE := entry? cm.taskId
    (if t.id ≠ "" then some (.text t.id) else none)
  let statusE := entry? cm.status
    (match t.status with
     | some s => if s ≠ "" then some (.label (labelFor cfg.status_mappings s))
                 else none
     | none => none)
  let priorityE := entry? cm.priority
    (match t.priority with
     | some s => if s ≠ "" then some (.label (labelFor cfg.priority_mappings s))
                 else none
     | none => none)
  let depsE := entry? cm.dependencies
    (if t.dependencies ≠ [] then
       some (.text (String.intercalate ", " t.dependencies))
     else none)
  let cxVal : Option String :=
    if strTruthy t.complexity then t.complexity
    else if t.id ≠ "" then alGet? cfg.complexityMap t.id else none
  let complexityE := entry? cm.complexity
    (match cxVal with
     | some s => if s ≠ "" then some (.text s) else none
     | none => none)
  let descE := entry? cm.description (optText t.description)
  let detailsE := entry? cm.details (optText t.details)
  let testE := entry? cm.testStrategy (optText t.testStrategy)
  taskIdE ++ statusE ++ priorityE ++ depsE ++ complexityE ++ descE ++
    detailsE ++ testE

/-! ### Push results -/

structure CreatedEntry where
  taskId : String
  mondayItemId : Option String
deriving Repr, DecidableEq

structure RecreatedEntry where
  taskId : String
  oldMondayItemId : Option String
  newMondayItemId : Option String
deriving Repr, DecidableEq

structure OrphanEntry where
  mondayItemId : String
  taskId : String
deriving Repr, DecidableEq

structure PushErrorEntry where
  taskId : Option String
  mondayItemId : Option String
  error : String
deriving Repr, DecidableEq

structure PushResults where
  created : List CreatedEntry
  updated : List CreatedEntry
  recreated : List RecreatedEntry
  deleted : List OrphanEntry
  errors : List PushErrorEntry
  dryRun : Bool
deriving Repr, DecidableEq

/-- The `{action, mondayItemId, oldMondayItemId, taskId, error}` object
returned by `syncTask` (the dispatch in `pushSync` additionally handles
an action string `"recreated"` that `syncTask` never produces). -/
structure SyncTaskResult where
  action : String
  mondayItemId : Option String
  oldMondayItemId : Option String
  taskId : String
  error : Option String
deriving Repr, DecidableEq

/-! ### createMondayItem / updateMondayItem / syncTask -/

/-- Mirrors `createMondayItem(task, groupId)`: in dry-run mode returns a
stub without touching anything; otherwise creates the item and records
the mapping via `updateSyncedTimestamp`. -/
def createMondayItem (env : PushEnv) (cfg : PushConfig) (dryRun : Bool)
    (w : World) (t : Task) (groupId : String) :
    Except String BoardItem × World :=
  let cv := mapTaskToColumnValues cfg t
  let _ := cv
  if dryRun then
    (.ok ⟨"dry-run-id-" ++ toString w.now, t.title, "", [], [], w.now⟩, w)
  else
    match clientCreateItem env w groupId t.title cv with
    | (.error e, w1) => (.error e, w1)
    | (.ok item, w1) =>
        match updateSyncedTimestamp w1 item.id t.id w1.now with
        | (.ok _, w2) => (.ok item, w2)
        | (.error e, w2) => (.error e, w2)

/-- Mirrors `updateMondayItem(task, mondayItemId)`: dry-run returns a
stub; otherwise fetches the item, renames it only when the title
changed, writes the column values unconditionally, refreshes the synced
timestamp, and finally runs the legacy update-id cleanup (whose delete
mutation errors are swallowed). -/
def updateMondayItem (env : PushEnv) (cfg : PushConfig) (dryRun : Bool)
    (w : World) (t : Task) (mid : String) :
    Except String BoardItem × World :=
  let cv := mapTaskToColumnValues cfg t
  if dryRun then (.ok ⟨mid, t.title, "", [], [], w.now⟩, w)
  else
    match clientGetItem env w mid with
    | (.error e, w1) => (.error e, w1)
    | (.ok cur, w1) =>
        let step1 :=
          if cur.name ≠ t.title then clientUpdateItemName env w1 mid t.title
          else (.ok cur, w1)
        match step1 with
        | (.error e, w2) => (.error e, w2)
        | (.ok _, w2) =>
            match clientUpdateItemColumnValues env w2 mid cv with
            | (.error e, w3) => (.error e, w3)
            | (.ok updatedItem, w3) =>
                match updateSyncedTimestamp w3 mid t.id w3.now with
                | (.error e, w4) => (.error e, w4)
                | (.ok _, w4) =>
                    match getUpdateIdForTask w4 t.id mid with
                    | (.error e, w5) => (.error e, w5)
                    | (.ok none, w5) => (.ok updatedItem, w5)
                    | (.ok (some _), w5) =>
                        match apiStep env w5 with
                        | (some _, w6) => (.ok updatedItem, w6)
                        | (none, w6) =>
                            match removeUpdateIdForTask w6 t.id mid with
                            | (_, w7) => (.ok updatedItem, w7)

/-- Mirrors `syncTask(task, validGroupIds)`: throws on a missing id
(outside the try block); otherwise updates when a mapping exists (first
mapped id), else creates in the first valid group; every failure inside
the try is converted to an `error` action result. -/
def syncTask (env : PushEnv) (cfg : PushConfig) (dryRun : Bool) (w : World)
    (t : Task) (validGroupIds : List String) :
    Except String SyncTaskResult × World :=
  if t.id = "" then (.error "Task is invalid (missing ID)", w)
  else
    let inner : Except String SyncTaskResult × World :=
      match getMondayItemIdsForTask w t.id with
      | (.error e, w1) => (.error e, w1)
      | (.ok mids, w1) =>
          match mids with
          | mid :: _ =>
              match updateMondayItem env cfg dryRun w1 t mid with
              | (.error e, w2) => (.error e, w2)
              | (.ok u, w2) => (.ok ⟨"updated", some u.id, none, t.id, none⟩, w2)
          | [] =>
              match validGroupIds with
              | [] => (.error "No valid group IDs provided", w1)
              | g :: _ =>
                  match createMondayItem env cfg dryRun w1 t g with
                  | (.error e, w2) => (.error e, w2)
                  | (.ok item, w2) =>
                      (.ok ⟨"created", some item.id, none, t.id, none⟩, w2)
    match inner with
    | (.error e, w') => (.ok ⟨"error", none, none, t.id, some e⟩, w')
    | ok => ok

/-- Mirrors `getValidGroupIds()`: special-cases a lone `all`, filters the
configured ids against the board's groups, and throws when none match. -/
def getValidGroupIds (env : PushEnv) (cfg : PushConfig) (w : World) :
    Except String (List String) × World :=
  match clientGetBoardGroups env w with
  | (.error e, w1) => (.error e, w1)
  | (.ok groups, w1) =>
      let isAll := match cfg.mondayGroupIds with
        | [x] => x == "all"
        | _ => false
      if isAll then (.ok groups, w1)
      else
        let valid := cfg.mondayGroupIds.filter (fun g => groups.contains g)
        if valid.isEmpty then
          (.error ("No valid groups found in board " ++ cfg.mondayBoardId), w1)
        else (.ok valid, w1)

/-! ### pushSync -/

structure PushOptions where
  dryRun : Bool
  deleteOrphaned : Bool
deriving Repr, DecidableEq

/-- The result-dispatch block of the `pushSync` loop body: append the
action's entry to the matching result list (the `recreated` arm is dead
code: `syncTask` never returns that action). -/
def dispatchResults (res : PushResults) (tid : String) (r : SyncTaskResult) :
    PushResults :=
  if r.action == "recreated" then
    { res with recreated :=
        res.recreated ++ [⟨tid, r.oldMondayItemId, r.mondayItemId⟩] }
  else if r.action == "created" then
    { res with created := res.created ++ [⟨tid, r.mondayItemId⟩] }
  else if r.action == "updated" then
    { res with updated := res.updated ++ [⟨tid, r.mondayItemId⟩] }
  else if r.action == "error" then
    { res with errors :=
        res.errors ++ [⟨some tid, none, r.error.getD "Unknown error"⟩] }
  else res

/-- The tail of the `pushSync` loop body after the recreation check: run
`syncTask` under its catch, dispatch the result action, and run the
post-creation verification read (errors swallowed). -/
def processTaskTail (env : PushEnv) (cfg : PushConfig) (dryRun : Bool)
    (gids : List String) (res : PushResults) (t' : Task) (w : World) :
    PushResults × World :=
  let step2 : SyncTaskResult × World :=
    match syncTask env cfg dryRun w t' gids with
    | (.ok r, w1) => (r, w1)
    | (.error e, w1) => (⟨"error", none, none, t'.id, some e⟩, w1)
  let r := step2.1
  let w := step2.2
  let res := dispatchResults res t'.id r
  let w :=
    if !dryRun && (r.action == "created" || r.action == "recreated") then
      (clientGetItems env w).2
    else w
  (res, w)

/-- The per-task body of the `pushSync` loop: skip id-less tasks, run the
stale-back-reference recreation check (whose `removeMondayItem` receives
the already-nulled id and throws into the inner catch), then the tail
(`syncTask` under its own catch, the dispatch, the verification read).
The outer per-task catch cannot fire beyond what the inner catches
already absorb. -/
def processTask (env : PushEnv) (cfg : PushConfig) (dryRun : Bool)
    (gids : List String) (acc : PushResults × World) (t : Task) :
    PushResults × World :=
  let res := acc.1
  let w := acc.2
  if t.id = "" then (res, w)
  else
    let step1 : Task × World :=
      if strTruthy t.monday_item_id then
        match clientGetItems env w with
        | (.error _, w1) => (t, w1)
        | (.ok items, w1) =>
            let itemExists := items.any (fun it => some it.id == t.monday_item_id)
            if !itemExists then
              let t2 := { t with monday_item_id := none }
              match removeMondayItem w1 t2.monday_item_id with
              | (_, w2) => (t2, w2)
            else (t, w1)
      else (t, w)
    processTaskTail env cfg dryRun gids res step1.1 step1.2

/-- Per-orphan deletion step of `handleOrphanedItems`: a successful
remote delete removes the mapping and records the entry; failures are
recorded in the error list (the per-item catch). -/
def deleteOrphan (env : PushEnv) (acc : PushResults × World)
    (o : OrphanEntry) : PushResults × World :=
  let res := acc.1
  let w := acc.2
  match clientDeleteItem env w o.mondayItemId with
  | (true, w1) =>
      match removeMondayItem w1 (some o.mondayItemId) with
      | (.ok _, w2) => ({ res with deleted := res.deleted ++ [o] }, w2)
      | (.error e, w2) =>
          ({ res with errors :=
              res.errors ++ [⟨some o.taskId, some o.mondayItemId, e⟩] }, w2)
  | (false, w1) =>
      ({ res with errors := res.errors ++
          [⟨some o.taskId, some o.mondayItemId,
            "Failed to delete orphaned item"⟩] }, w1)

/-- Mirrors `handleOrphanedItems(localTasks, dryRun, results)`: scans the
legacy `items` map for mappings whose task id is absent locally; in
dry-run mode the whole orphan list is assigned to `deleted`; otherwise
each orphan is deleted remotely and unmapped.  A sync-state read failure
is rethrown by the outer catch. -/
def handleOrphanedItems (env : PushEnv) (dryRun : Bool) (w : World)
    (tasks : List Task) (res : PushResults) :
    Except String PushResults × World :=
  match readSyncState w with
  | (.error e, w1) => (.error e, w1)
  | (.ok s, w1) =>
      match s.items with
      | none => (.ok res, w1)
      | some its =>
          let localTaskIds := tasks.map (·.id)
          let orphaned : List OrphanEntry :=
            (its.filter (fun p =>
              p.2.taskmasterTaskId ≠ "" &&
              !(localTaskIds.contains p.2.taskmasterTaskId))).map
              (fun p => ⟨p.1, p.2.taskmasterTaskId⟩)
          if dryRun then (.ok { res with deleted := orphaned }, w1)
          else
            let out := orphaned.foldl (deleteOrphan env) (res, w1)
            (.ok out.1, out.2)

/-- Mirrors `pushSync(options)`: read the tasks, resolve the valid
groups (both failures abort the run), process every task sequentially,
then handle orphaned Monday items unless disabled. -/
def pushSync (env : PushEnv) (cfg : PushConfig) (opts : PushOptions)
    (w : World) : Except String PushResults × World :=
  let res0 : PushResults := ⟨[], [], [], [], [], opts.dryRun⟩
  match env.readTasksFail with
  | some e => (.error ("Error reading tasks file: " ++ e), w)
  | none =>
      let tasks := w.tasksFile
      match getValidGroupIds env cfg w with
      | (.error e, w1) => (.error e, w1)
      | (.ok gids, w1) =>
          let out := tasks.foldl (processTask env cfg opts.dryRun gids) (res0, w1)
          if opts.deleteOrphaned then
            handleOrphanedItems env opts.dryRun out.2 tasks out.1
          else (.ok out.1, out.2)

/-! ### Pull reconciler (pullSyncLogic)

The pull client reads are deterministic in this model (the pull claims do
not concern remote failures): `getBoardGroups` returns the board's group
ids and `getItems(boardId, {groupId})` the group's items. -/

/-- Pull-side configuration: column mappings and the forward status and
priority label tables (reversed at construction time). -/
structure PullConfig where
  columnMapping : ColumnMapping
  status_mappings : List (String × String)
  priority_mappings : List (String × String)
  mondayBoardId : String
  mondayGroupIds : List String
deriving Repr, DecidableEq

/-- Mirrors `reverseMapping(mapping)`: truthy values become lowercased
keys, later entries overwriting earlier ones. -/
def reverseMapping (m : List (String × String)) : List (String × String) :=
  m.foldl (fun acc p => if p.2 ≠ "" then alSet acc p.2.toLower p.1 else acc) []

/-- One step of the `mapItemToTask` column loop: a cell with a falsy id
or text is skipped; otherwise every matching mapping (the checks are
independent, not chained) writes its field. -/
def applyCell (cm : ColumnMapping) (sm pm : List (String × String))
    (t : Task) (c : Cell) : Task :=
  if c.id = "" || c.text = "" then t
  else
    let t := if some c.id == cm.taskId then { t with id := c.text } else t
    let t := if some c.id == cm.status then
        { t with status := some (labelFor sm c.text.toLower) } else t
    let t := if some c.id == cm.priority then
        { t with priority := some (labelFor pm c.text.toLower) } else t
    let t := if some c.id == cm.dependencies then
        { t with dependencies :=
            ((c.text.splitOn ",").map String.trim).filter (fun d => d ≠ "") }
      else t
    let t := if some c.id == cm.description then
        { t with description := some c.text } else t
    let t := if some c.id == cm.details then
        { t with details := some c.text } else t
    let t := if some c.id == cm.testStrategy then
        { t with testStrategy := some c.text } else t
    t

/-- Mirrors `mapItemToTask(item)`: starts from `{title, monday_item_id}`
and folds the column values; dependencies and subtasks default to empty
lists. -/
def mapItemToTask (cfg : PullConfig) (item : BoardItem) : Task :=
  let sm := reverseMapping cfg.status_mappings
  let pm := reverseMapping cfg.priority_mappings
  let t0 : Task := { Task.base "" item.name with monday_item_id := some item.id }
  item.cells.foldl (applyCell cfg.columnMapping sm pm) t0

/-- Mirrors `tasksAreDifferent(task1, task2)`: field-by-field comparison,
dependencies compared as sets (deduplicated, order ignored). -/
def tasksAreDifferent (t1 t2 : Task) : Bool :=
  t1.title != t2.title || t1.status != t2.status ||
  t1.description != t2.description || t1.details != t2.details ||
  t1.priority != t2.priority ||
  (let d1 := t1.dependencies.eraseDups
   let d2 := t2.dependencies.eraseDups
   d1.length != d2.length || d1.any (fun d => !(d2.contains d)))

/-- The `taskMap` lookup of `compareItemsWithTasks`: tasks with truthy
ids keyed by id, later tasks overwriting earlier ones. -/
def taskMapGet (tasks : List Task) (id : String) : Option Task :=
  (tasks.filter (fun t => t.id ≠ "" && t.id == id)).getLast?

/-- The `mondayItemMap` lookup: tasks with truthy back-references keyed
by Monday item id, later tasks overwriting earlier ones. -/
def mondayMapGet (tasks : List Task) (mid : String) : Option Task :=
  (tasks.filter (fun t =>
    strTruthy t.monday_item_id && t.monday_item_id == some mid)).getLast?

structure CompareOptions where
  forceOverwrite : Bool
  skipConflicts : Bool
  specificTaskId : Option String
  recreateMissingTasks : Bool
deriving Repr, DecidableEq

structure ConflictEntry where
  mondayTask : Task
  localTask : Task
  reason : String
deriving Repr, DecidableEq

structure CompareResults where
  newItems : List Task
  updatedItems : List Task
  conflictItems : List ConflictEntry
  unchangedItems : List Task
  recreatedItems : List Task
  orphanedTaskIds : List String
deriving Repr, DecidableEq

def emptyCompareResults : CompareResults := ⟨[], [], [], [], [], []⟩

/-- The per-item body of `compareItemsWithTasks`: skip items without a
resolvable task id and items filtered out by `specificTaskId`; recreate
missing tasks (listed under both `recreatedItems` and `newItems`);
flag ambiguous back-reference mappings as conflicts; then, for an
existing differing pair, classify as updated when `forceOverwrite` or
when neither `skipConflicts` nor a specific-id filter applies, and
otherwise consult the stored last-sync timestamp to pick conflict,
skipped-unchanged, or updated.  A thrown error (only the state read can
throw here) is caught per item and the item skipped. -/
def compareStep (cfg : PullConfig) (opts : CompareOptions)
    (tasks : List Task) (acc : CompareResults × World) (item : BoardItem) :
    CompareResults × World :=
  let res := acc.1
  let w := acc.2
  let mondayTask := mapItemToTask cfg item
  if mondayTask.id = "" then (res, w)
  else
    let specTruthy := strTruthy opts.specificTaskId
    if specTruthy && !(opts.specificTaskId == some mondayTask.id) then (res, w)
    else
      let localTask := taskMapGet tasks mondayTask.id
      if localTask.isNone && mondayTask.id ≠ "" && opts.recreateMissingTasks then
        ({ res with recreatedItems := res.recreatedItems ++ [mondayTask],
                    newItems := res.newItems ++ [mondayTask] }, w)
      else
        let ambiguous :=
          match mondayMapGet tasks item.id with
          | some mt => mt.id != mondayTask.id
          | none => false
        if ambiguous && opts.recreateMissingTasks then
          match mondayMapGet tasks item.id with
          | some mt =>
              ({ res with conflictItems := res.conflictItems ++
                  [⟨mondayTask, mt,
                    "Monday.com item " ++ item.id ++ " is mapped to local Task " ++
                    mt.id ++ ", but its Task ID column is " ++ mondayTask.id⟩] }, w)
          | none => (res, w)
        else
          match localTask with
          | none => ({ res with newItems := res.newItems ++ [mondayTask] }, w)
          | some lt =>
              if tasksAreDifferent lt mondayTask then
                if opts.forceOverwrite ||
                    (!opts.skipConflicts && !specTruthy) then
                  ({ res with updatedItems := res.updatedItems ++ [mondayTask] }, w)
                else
                  match getLastSyncedTimestamp w item.id with
                  | (.error _, w1) => (res, w1)
                  | (.ok lastTs, w1) =>
                      let mondayTs := item.updated_at
                      let lastTruthy :=
                        match lastTs with
                        | some ts => ts ≠ 0
                        | none => false
                      if lastTruthy && mondayTs > lastTs.getD 0 then
                        if opts.forceOverwrite then
                          ({ res with updatedItems :=
                              res.updatedItems ++ [mondayTask] }, w1)
                        else if opts.skipConflicts then
                          ({ res with unchangedItems :=
                              res.unchangedItems ++ [mondayTask] }, w1)
                        else
                          ({ res with conflictItems := res.conflictItems ++
                              [⟨mondayTask, lt,
                                "Changes detected both locally and in Monday.com"⟩] },
                           w1)
                      else
                        ({ res with updatedItems :=
                            res.updatedItems ++ [mondayTask] }, w1)
              else
                ({ res with unchangedItems :=
                    res.unchangedItems ++ [mondayTask] }, w)

/-- Mirrors `compareItemsWithTasks(mondayItems, localTasks, options)`. -/
def compareItemsWithTasks (cfg : PullConfig) (opts : CompareOptions)
    (w : World) (mondayItems : List BoardItem) (tasks : List Task) :
    CompareResults × World :=
  mondayItems.foldl (compareStep cfg opts tasks) (emptyCompareResults, w)

/-- Mirrors `findOrphanedLocalTasks(localTasks, mondayItems)`: local
tasks whose truthy back-reference is absent from the fetched items, plus
minimal task stubs for sync-state entries pointing at absent items not
already covered. -/
def findOrphanedLocalTasks (w : World) (tasks : List Task)
    (mondayItems : List BoardItem) : Except String (List Task) × World :=
  let mids := mondayItems.map (·.id)
  match readSyncState w with
  | (.error e, w1) => (.error e, w1)
  | (.ok s, w1) =>
      let fromTasks := tasks.filter (fun t =>
        strTruthy t.monday_item_id &&
        !(mids.contains ((t.monday_item_id).getD "")))
      let orphans := (s.items.getD []).foldl (fun acc p =>
        if !(mids.contains p.1) &&
            !(acc.any (fun t => t.monday_item_id == some p.1)) then
          acc ++ [{ Task.base p.2.taskmasterTaskId "" with
                      monday_item_id := some p.1 }]
        else acc) fromTasks
      (.ok orphans, w1)

/-- Mirrors `handleOrphanedTasks(orphanedTasks, dryRun, ...)`: nothing to
do for an empty list or in dry-run mode; otherwise it re-reads the tasks
through `taskMasterIO.readTasks()`, which returns the bare task array, so
the `!tasksContainer.tasks` structure guard sees no such property and the
function throws before removing anything. -/
def handleOrphanedTasks (w : World) (orphans : List Task)
    (dryRun : Bool) : Except String Unit × World :=
  if orphans.isEmpty then (.ok (), w)
  else if dryRun then (.ok (), w)
  else (.error "Invalid tasks structure: missing tasks array", w)

/-- Mirrors `fetchMondayItems()`: resolve the board groups (throwing when
none exist or none match the configuration) and concatenate the items of
every valid group. -/
def fetchMondayItems (cfg : PullConfig) (w : World) :
    Except String (List BoardItem) × World :=
  if w.groups.isEmpty then
    (.error "No groups found on the Monday.com board", w)
  else
    let validGroups :=
      if cfg.mondayGroupIds.contains "all" then w.groups
      else w.groups.filter (fun g => cfg.mondayGroupIds.contains g)
    if validGroups.isEmpty then (.error "No valid groups found", w)
    else
      (.ok (validGroups.foldl
        (fun acc g => acc ++ w.board.filter (fun it => it.group == g)) []), w)

structure PullOptions where
  dryRun : Bool
  forceOverwrite : Bool
  skipConflicts : Bool
  specificTaskId : Option String
  regenerateTaskFiles : Bool
  removeOrphaned : Bool
  recreateMissingTasks : Bool
deriving Repr, DecidableEq

/-- The pull result record with its backward-compatibility aliases. -/
structure PullResults where
  new : List Task
  updated : List Task
  conflicts : List ConflictEntry
  orphanedTasks : Nat
  orphanedTaskIds : List String
  recreated : Nat
  newItems : List Task
  updatedItems : List Task
  conflictItems : List ConflictEntry
  recreatedItems : List Task
  newTasks : Nat
  updatedTasks : Nat
  dryRun : Bool
deriving Repr, DecidableEq

/-- The new-task half of the pull apply phase: append each new task and
record its mapping when it carries a back-reference. -/
def applyNewTasks : List Task → List Task → World →
    Except String (List Task) × World
  | [], tw, w => (.ok tw, w)
  | nt :: rest, tw, w =>
      let tw' := tw ++ [nt]
      if strTruthy nt.monday_item_id then
        match updateSyncedTimestamp w ((nt.monday_item_id).getD "") nt.id w.now with
        | (.error e, w1) => (.error e, w1)
        | (.ok _, w1) => applyNewTasks rest tw' w1
      else applyNewTasks rest tw' w

/-- The updated-task half of the pull apply phase: overwrite in place
preserving the existing subtasks, append when absent, and record the
mapping. -/
def applyUpdatedTasks : List Task → List Task → World →
    Except String (List Task) × World
  | [], tw, w => (.ok tw, w)
  | ut :: rest, tw, w =>
      let tw' :=
        match tw.findIdx? (fun t => t.id == ut.id) with
        | some i =>
            let subtasks := match tw.get? i with
              | some old => old.subtasks
              | none => []
            tw.set i { ut with subtasks := subtasks }
        | none => tw ++ [ut]
      if strTruthy ut.monday_item_id then
        match updateSyncedTimestamp w ((ut.monday_item_id).getD "") ut.id w.now with
        | (.error e, w1) => (.error e, w1)
        | (.ok _, w1) => applyUpdatedTasks rest tw' w1
      else applyUpdatedTasks rest tw' w

/-- Mirrors `pullSync(options)`: fetch, read local tasks, compare, scan
for orphans, assemble the result record, and (unless dry-running) apply:
the write-back list starts empty because `readTasks()` returns a bare
array whose `.tasks` property is undefined, new and updated tasks are
folded in, orphan removal runs (and throws on its structure guard when
there is anything to remove), and the collection is written once.  The
external `task-master generate` regeneration is a no-op on the modelled
world. -/
def pullSync (cfg : PullConfig) (opts : PullOptions) (w : World) :
    Except String PullResults × World :=
  match fetchMondayItems cfg w with
  | (.error e, w1) => (.error e, w1)
  | (.ok mondayItems, w1) =>
      let localTasks := w1.tasksFile
      let cOpts : CompareOptions :=
        ⟨opts.forceOverwrite, opts.skipConflicts, opts.specificTaskId,
         opts.recreateMissingTasks⟩
      let cmp := compareItemsWithTasks cfg cOpts w1 mondayItems localTasks
      let cres := cmp.1
      let w2 := cmp.2
      match findOrphanedLocalTasks w2 localTasks mondayItems with
      | (.error e, w3) => (.error e, w3)
      | (.ok orphans, w3) =>
          let results : PullResults :=
            { new := cres.newItems, updated := cres.updatedItems,
              conflicts := cres.conflictItems,
              orphanedTasks := orphans.length,
              orphanedTaskIds := orphans.map (·.id),
              recreated := cres.recreatedItems.length,
              newItems := cres.newItems, updatedItems := cres.updatedItems,
              conflictItems := cres.conflictItems,
              recreatedItems := cres.recreatedItems,
              newTasks := cres.newItems.length,
              updatedTasks := cres.updatedItems.length,
              dryRun := opts.dryRun }
          if opts.dryRun then (.ok results, w3)
          else
            match applyNewTasks cres.newItems [] w3 with
            | (.error e, w4) => (.error e, w4)
            | (.ok tw1, w4) =>
                match applyUpdatedTasks cres.updatedItems tw1 w4 with
                | (.error e, w5) => (.error e, w5)
                | (.ok tw2, w5) =>
                    let orphanStep :=
                      if opts.removeOrphaned && !orphans.isEmpty then
                        handleOrphanedTasks w5 orphans false
                      else (.ok (), w5)
                    match orphanStep with
                    | (.error e, w6) => (.error e, w6)
                    | (.ok _, w6) =>
                        (.ok results, { w6 with tasksFile := tw2 })

/-! ### Specification views used by the proofs -/

/-- The push environment in which every remote call succeeds and the
tasks file is readable. -/
def okEnv : PushEnv := ⟨fun _ => none, none⟩

/-- The manager cache, when populated, holds exactly the persisted
state (true in every reachable world: writes set both). -/
def cacheOK (w : World) : Prop :=
  match w.cache with
  | some c => w.stateFile = .good c
  | none => True

instance (w : World) : Decidable (cacheOK w) := by
  unfold cacheOK
  match w.cache with
  | some c => exact inferInstance
  | none => exact inferInstance

/-- The sync state an operation effectively reads: the cache when
populated, else the parsed file (empty for missing/corrupt). -/
def effState (w : World) : SyncState :=
  match w.cache with
  | some c => c
  | none => stateOf w

def itemsOf (s : SyncState) : List (String × ItemData) :=
  s.items.getD []

/-- The legacy-items view of the mappings of one task id. -/
def itemsFilterIds (s : SyncState) (tid : String) : List String :=
  ((itemsOf s).filter (fun p => p.2.taskmasterTaskId == tid)).map (·.1)

/-- The orphaned mappings `handleOrphanedItems` computes from a state:
entries whose truthy task id is absent from the local ids. -/
def specOrphans (s : SyncState) (localIds : List String) : List OrphanEntry :=
  match s.items with
  | some its =>
      (its.filter (fun p =>
        p.2.taskmasterTaskId ≠ "" &&
        !(localIds.contains p.2.taskmasterTaskId))).map
        (fun p => ⟨p.1, p.2.taskmasterTaskId⟩)
  | none => []

/-- Task ids a push over `ts` creates: valid ids with no mapping. -/
def createdSpecIds (s : SyncState) (ts : List Task) : List String :=
  (ts.filter (fun t => t.id ≠ "" && (mappedIdsPure s t.id).isEmpty)).map (·.id)

/-- Task ids a push over `ts` updates: valid ids with a mapping. -/
def updatedSpecIds (s : SyncState) (ts : List Task) : List String :=
  (ts.filter (fun t => t.id ≠ "" && !(mappedIdsPure s t.id).isEmpty)).map (·.id)

def boardIds (b : List BoardItem) : List String := b.map (·.id)

/-- The persisted stores (tasks file, board, state file) agree. -/
def persistSame (w w' : World) : Prop :=
  w'.tasksFile = w.tasksFile ∧ w'.board = w.board ∧ w'.stateFile = w.stateFile

instance (w w' : World) : Decidable (persistSame w w') := by
  unfold persistSame; exact inferInstance

/-- A remote call leaves the state manager untouched: the lock, the
in-memory cache and the persisted state file are as before. -/
def SMPres (w w' : World) : Prop :=
  w'.lockHeld = w.lockHeld ∧ w'.cache = w.cache ∧ w'.stateFile = w.stateFile

/-- What a pure state read guarantees about the world it returns. -/
def ReadPres (w w' : World) : Prop :=
  w'.tasksFile = w.tasksFile ∧ w'.board = w.board ∧
  w'.stateFile = w.stateFile ∧ w'.groups = w.groups ∧ w'.now = w.now ∧
  w'.freshN = w.freshN ∧ w'.apiCalls = w.apiCalls ∧
  w'.lockHeld = false ∧ cacheOK w' ∧ effState w' = effState w

/-- What a state write guarantees: the new state is persisted and
effective, everything else but the cache is untouched. -/
def WritePres (w w' : World) (s' : SyncState) : Prop :=
  w'.tasksFile = w.tasksFile ∧ w'.board = w.board ∧
  w'.stateFile = .good s' ∧ w'.groups = w.groups ∧ w'.now = w.now ∧
  w'.freshN = w.freshN ∧ w'.apiCalls = w.apiCalls ∧
  w'.lockHeld = false ∧ cacheOK w' ∧ effState w' = s'

/-- The world after one remote call was issued: only the call counter
moves. -/
def bumpCalls (w : World) : World := { w with apiCalls := w.apiCalls + 1 }

/-- No `taskMappings` entry carries the alternative `taskId` field (true
whenever only `updateSyncedTimestamp` ever wrote mappings:
`storeUpdateIdForTask` is the only writer of that field). -/
def noAltIds (s : SyncState) : Prop :=
  ∀ m ∈ s.taskMappings, m.taskId = none

instance (s : SyncState) : Decidable (noAltIds s) := by
  unfold noAltIds
  exact inferInstance

/-- The task is mapped through the legacy `items` map: the first mapped
id both belongs to an `items` entry pointing back at the task and names
an item present on the board.  This is the state `updateSyncedTimestamp`
leaves behind after a successful creation. -/
def taskMappedB (s : SyncState) (b : List BoardItem) (t : Task) : Bool :=
  match itemsFilterIds s t.id with
  | [] => false
  | mid :: _ =>
      match alGet? (itemsOf s) mid with
      | some d => d.taskmasterTaskId == t.id && (boardIds b).contains mid
      | none => false

/-- How many per-record outcomes a push result carries. -/
def pushCount (r : PushResults) : Nat :=
  r.updated.length + r.created.length + r.recreated.length + r.errors.length

/-- The records of a task list that `pushSync` actually processes (a
falsy id is skipped with a warning). -/
def validCount (ts : List Task) : Nat :=
  (ts.filter (fun t => t.id ≠ "")).length

/-! ### Concrete claim scenarios -/

/-- A column-mapping table that maps only the task-id column. -/
def cmTaskIdOnly : ColumnMapping :=
  ⟨some "task_id", none, none, none, none, none, none, none⟩

def c2Local : Task :=
  { Task.base "1" "Local title" with
    status := some "pending", monday_item_id := some "M1" }

def c2Item : BoardItem :=
  ⟨"M1", "Remote title", "g1", [], [⟨"task_id", "1"⟩], 9000⟩

def c2Cfg : PullConfig :=
  { columnMapping := cmTaskIdOnly, status_mappings := [],
    priority_mappings := [], mondayBoardId := "B1",
    mondayGroupIds := ["g1"] }

def c2State : SyncState :=
  { version := "1.0", lastSync := some 5000,
    taskMappings := [MappingEntry.mk3 "M1" "1" 5000],
    mondayToTaskMaster := [("M1", "1")],
    taskMasterToMonday := [("1", ["M1"])],
    items := some [("M1", { taskmasterTaskId := "1", timestamp := 5000 })] }

def c2World : World :=
  { tasksFile := [c2Local], board := [c2Item], groups := ["g1"],
    stateFile := .good c2State, cache := none, cacheTime := none,
    lockHeld := false, now := 100000, freshN := 0, apiCalls := 0 }

def c2RunPlain : Except String PullResults × World :=
  pullSync c2Cfg
    { dryRun := false, forceOverwrite := false, skipConflicts := false,
      specificTaskId := none, regenerateTaskFiles := true,
      removeOrphaned := true, recreateMissingTasks := true } c2World

/-- The classification of the C2 run: the conflict list and the updated
task ids, when the run succeeded. -/
def c2Classified : Option (List ConflictEntry × List String) :=
  match c2RunPlain.1 with
  | .ok r => some (r.conflicts, r.updated.map Task.id)
  | .error _ => none

def c2WorldAfter : World := (getLastSyncedTimestamp c2World c2Item.id).2

def c1Task : Task := { Task.base "7" "Fix login" with monday_item_id := some "R7" }

def c1State : SyncState :=
  { version := "1.0", lastSync := some 50,
    taskMappings := [MappingEntry.mk3 "R7" "7" 50],
    mondayToTaskMaster := [("R7", "7")],
    taskMasterToMonday := [("7", ["R7"])],
    items := some [("R7", { taskmasterTaskId := "7", timestamp := 50 })] }

def c1World : World :=
  { tasksFile := [c1Task], board := [], groups := ["g1"],
    stateFile := .good c1State, cache := none, cacheTime := none,
    lockHeld := false, now := 100000, freshN := 0, apiCalls := 0 }

def c1Cfg : PushConfig :=
  { columnMapping := cmTaskIdOnly,
    status_mappings := [], priority_mappings := [], complexityMap := [],
    mondayBoardId := "B1", mondayGroupIds := ["g1"] }

def c1Env : PushEnv := { apiFail := fun _ => none, readTasksFail := none }

def c1Run : Except String PushResults × World :=
  pushSync c1Env c1Cfg { dryRun := false, deleteOrphaned := true } c1World

def c6World0 : World :=
  ⟨[], [], ["g1"], .good getEmptySyncState, none, none, false, 100000, 0, 0⟩

def c6World1 : World := (updateSyncedTimestamp c6World0 "M1" "T1" 5).2

def c6World2 : World := (updateSyncedTimestamp c6World1 "M1" "T2" 6).2

def c7World : World :=
  ⟨[], [], ["g1"], .corrupt, none, none, false, 100000, 0, 0⟩

def c10World : World :=
  ⟨[], [], ["g1"], .missing, none, none, false, 100000, 0, 0⟩

def c9Att : Nat → Except String ApiResp := fun n =>
  if n == 0 then .error "transient network failure" else .ok ⟨some [], []⟩

def c8Att : Nat → Except String ApiResp := fun _ => .error "rate limited"

def c8Queue : List BatchOp :=
  (addToBatch (addToBatch [] "mutation CreateItem" [("itemName", "Fix login")]).1
    "mutation CreateItem" [("itemName", "Add tests")]).1

def c3Task : Task := Task.base "1" "Task one"

def c3Cfg : PushConfig :=
  { columnMapping := cmTaskIdOnly,
    status_mappings := [], priority_mappings := [], complexityMap := [],
    mondayBoardId := "B1", mondayGroupIds := ["all"] }

def c3World0 : World :=
  { tasksFile := [c3Task], board := [], groups := ["g1"],
    stateFile := .good getEmptySyncState, cache := none, cacheTime := none,
    lockHeld := false, now := 100000, freshN := 0, apiCalls := 0 }

def c3Run1 : Except String PushResults × World :=
  pushSync okEnv c3Cfg { dryRun := false, deleteOrphaned := false } c3World0

def c3World1 : World := c3Run1.2

def c3Run2 : Except String PushResults × World :=
  pushSync okEnv c3Cfg { dryRun := false, deleteOrphaned := false } c3World1

/-- The classification of the first and second push run over the same
unchanged tasks file: for each run, the created task ids and the updated
task ids (when the run succeeded). -/
def c3Classified : Option ((List String × List String) × (List String × List String)) :=
  match c3Run1.1, c3Run2.1 with
  | .ok r1, .ok r2 =>
      some ((r1.created.map (·.taskId), r1.updated.map (·.taskId)),
            (r2.created.map (·.taskId), r2.updated.map (·.taskId)))
  | _, _ => none

def c4Task : Task := { Task.base "7" "Fix login" with monday_item_id := some "R7" }

def c4State : SyncState :=
  { version := "1.0", lastSync := some 50,
    taskMappings := [MappingEntry.mk3 "R7" "7" 50],
    mondayToTaskMaster := [("R7", "7")],
    taskMasterToMonday := [("7", ["R7"])],
    items := some [("R7", { taskmasterTaskId := "7", timestamp := 50 })] }

def c4World : World :=
  { tasksFile := [c4Task], board := [], groups := ["g1"],
    stateFile := .good c4State, cache := none, cacheTime := none,
    lockHeld := false, now := 100000, freshN := 0, apiCalls := 0 }

def c4Cfg : PushConfig :=
  { columnMapping := cmTaskIdOnly,
    status_mappings := [], priority_mappings := [], complexityMap := [],
    mondayBoardId := "B1", mondayGroupIds := ["g1"] }

/-- The classification a push run over `c4World` reports under the given
dry-run flag: the updated task ids and the errored task ids (when the
run succeeded). -/
def c4Class (dr : Bool) : Option (List String × List String) :=
  match (pushSync okEnv c4Cfg { dryRun := dr, deleteOrphaned := false } c4World).1 with
  | .ok r => some (r.updated.map (·.taskId),
                   r.errors.map (fun e => e.taskId.getD ""))
  | .error _ => none

def c4PullCfg : PullConfig :=
  { columnMapping := cmTaskIdOnly, status_mappings := [],
    priority_mappings := [], mondayBoardId := "B1",
    mondayGroupIds := ["g1"] }

def c4PullOpts : PullOptions :=
  { dryRun := true, forceOverwrite := false, skipConflicts := false,
    specificTaskId := none, regenerateTaskFiles := true,
    removeOrphaned := true, recreateMissingTasks := true }

/-- A push environment whose second remote call fails (the call the
first valid task's creation issues), isolating that record. -/
def c5Env : PushEnv :=
  { apiFail := fun n => if n == 1 then some "server error 500" else none,
    readTasksFail := none }

def c5World : World :=
  { tasksFile := [Task.base "1" "One", Task.base "" "No id",
                  Task.base "2" "Two"],
    board := [], groups := ["g1"],
    stateFile := .good getEmptySyncState, cache := none, cacheTime := none,
    lockHeld := false, now := 100000, freshN := 0, apiCalls := 0 }

def c5Cfg : PushConfig :=
  { columnMapping := cmTaskIdOnly,
    status_mappings := [], priority_mappings := [], complexityMap := [],
    mondayBoardId := "B1", mondayGroupIds := ["all"] }

/-! ### Supporting lemmas and claim theorems -/

theorem freshId_inj {n k : Nat} (h : freshId n = freshId k) : n = k := by
  unfold freshId at h
  injection h with h2
  injection h2 with _ h3
  have h4 := congrArg List.length h3
  simpa using h4

theorem alGet?_alSet_self {β : Type} (l : List (String × β)) (k : String)
    (v : β) : alGet? (alSet l k v) k = some v := by
  induction l with
  | nil => simp [alSet, alGet?]
  | cons p rest ih =>
      by_cases h : p.1 == k
      · simp [alSet, h, alGet?]
      · simp only [alSet, h]
        simpa [alGet?, h] using ih

theorem alGet?_alSet_ne {β : Type} (l : List (String × β)) (k k' : String)
    (v : β) (h : k' ≠ k) : alGet? (alSet l k v) k' = alGet? l k' := by
  induction l with
  | nil => simp [alSet, alGet?, bne, Ne.symm h]
  | cons p rest ih =>
      by_cases hk : p.1 == k
      · have hpk : p.1 = k := by simpa using hk
        have : ¬(k == k') := by simp [Ne.symm h]
        simp [alSet, hk, alGet?, hpk, this]
      · by_cases hk' : p.1 == k'
        · simp [alSet, hk, alGet?, hk']
        · simp only [alSet, hk]
          simpa [alGet?, hk'] using ih

theorem alGet?_cons {β : Type} (q : String × β) (rest : List (String × β))
    (k : String) :
    alGet? (q :: rest) k = if q.1 == k then some q.2 else alGet? rest k := by
  by_cases h : (q.1 == k) = true <;> simp [alGet?, List.find?, h]

theorem alGet?_mem_keys {β : Type} (l : List (String × β)) (k : String)
    (v : β) (h : alGet? l k = some v) : k ∈ l.map (·.1) := by
  induction l with
  | nil => simp [alGet?] at h
  | cons p rest ih =>
      rw [alGet?_cons] at h
      by_cases hk : (p.1 == k) = true
      · have : p.1 = k := by simpa using hk
        simp [this]
      · rw [if_neg hk] at h
        simp only [List.map_cons, List.mem_cons]
        exact Or.inr (ih h)

theorem alSet_of_not_mem {β : Type} (l : List (String × β)) (k : String)
    (v : β) (h : alGet? l k = none) : alSet l k v = l ++ [(k, v)] := by
  induction l with
  | nil => simp [alSet]
  | cons p rest ih =>
      rw [alGet?_cons] at h
      by_cases hk : (p.1 == k) = true
      · rw [if_pos hk] at h
        exact absurd h (by simp)
      · rw [if_neg hk] at h
        simp [alSet, hk, ih h]

theorem filter_map_alSet_mem {β γ : Type} (p : String × β → Bool)
    (f : String × β → γ) (l : List (String × β)) (k : String) (v v0 : β)
    (hmem : alGet? l k = some v0) (hcong : p (k, v) = p (k, v0))
    (hval : p (k, v) = true → f (k, v) = f (k, v0)) :
    ((alSet l k v).filter p).map f = (l.filter p).map f := by
  induction l with
  | nil => simp [alGet?] at hmem
  | cons q rest ih =>
      obtain ⟨q1, q2⟩ := q
      rw [alGet?_cons] at hmem
      by_cases hk : (q1 == k) = true
      · rw [if_pos hk] at hmem
        have hq1 : q1 = k := by simpa using hk
        subst hq1
        have hq2 : q2 = v0 := by simpa using hmem
        subst hq2
        simp only [alSet, hk, if_true]
        rw [List.filter_cons, List.filter_cons]
        by_cases hp : p (q1, v) = true
        · rw [if_pos hp, if_pos (hcong ▸ hp)]
          simp [hval hp]
        · rw [if_neg hp, if_neg (by rw [← hcong]; exact hp)]
      · rw [if_neg hk] at hmem
        have ih' := ih hmem
        simp only [alSet, hk, if_false, Bool.false_eq_true]
        rw [List.filter_cons, List.filter_cons]
        by_cases hq : p (q1, q2) = true
        · simp [hq, ih']
        · simp [hq, ih']

theorem filter_map_append_true {β γ : Type} (p : String × β → Bool)
    (f : String × β → γ) (l : List (String × β)) (e : String × β)
    (hp : p e = true) :
    ((l ++ [e]).filter p).map f = (l.filter p).map f ++ [f e] := by
  simp [List.filter_append, hp]

theorem filter_map_append_false {β γ : Type} (p : String × β → Bool)
    (f : String × β → γ) (l : List (String × β)) (e : String × β)
    (hp : p e = false) :
    ((l ++ [e]).filter p).map f = (l.filter p).map f := by
  simp [List.filter_append, hp]

theorem filter_head_alGet {β : Type}
    (pred : String × β → Bool) (l : List (String × β)) (mid : String)
    (rest : List String)
    (hnd : (l.map (·.1)).Nodup)
    (h : ((l.filter pred).map (·.1)) = mid :: rest) :
    ∃ d, alGet? l mid = some d ∧ pred (mid, d) = true := by
  induction l with
  | nil => simp at h
  | cons q r ih =>
      rw [List.filter_cons] at h
      by_cases hq : pred q = true
      · rw [if_pos hq] at h
        simp only [List.map_cons, List.cons.injEq] at h
        obtain ⟨h1, _⟩ := h
        obtain ⟨q1, q2⟩ := q
        simp only at h1
        subst h1
        exact ⟨q2, by rw [alGet?_cons]; simp, by simpa using hq⟩
      · rw [if_neg hq] at h
        have hnd' := (List.nodup_cons.mp hnd).2
        obtain ⟨d, hd, hp⟩ := ih hnd' h
        refine ⟨d, ?_, hp⟩
        have hqm : q.1 ≠ mid := by
          intro he
          have hmem' : mid ∈ r.map (·.1) := alGet?_mem_keys r mid d hd
          rw [← he] at hmem'
          exact (List.nodup_cons.mp hnd).1 hmem'
        rw [alGet?_cons, if_neg (by simpa using hqm)]
        exact hd

/-- `readSyncState` never changes the persisted stores: the tasks file,
the board, and the state file are untouched (a missing file stays
missing: the nested write fails on the held lock). -/
theorem writeSyncState_spec (w : World) (s : SyncState)
    (hl : w.lockHeld = false) :
    writeSyncState w s =
      (.ok (), { w with stateFile := .good (stampState w.now s),
                        cache := some (stampState w.now s),
                        cacheTime := some w.now },
       stampState w.now s) := by
  obtain ⟨tf, bd, gr, sf, ch, ct, lh, nw, fn, ac⟩ := w
  simp only at hl
  subst hl
  simp [writeSyncState, acquireLock, releaseLock]

theorem readSyncState_spec (w : World) (hl : w.lockHeld = false)
    (hc : cacheOK w) :
    (readSyncState w).1 = .ok (effState w) ∧ ReadPres w (readSyncState w).2 := by
  by_cases hcv : cacheValid w = true
  · rcases hch : w.cache with _ | c
    · rw [cacheValid, hch] at hcv
      simp at hcv
    · refine ⟨?_, ?_⟩
      · simp [readSyncState, hcv, effState, hch]
      · simp only [readSyncState, hcv, if_true]
        exact ⟨rfl, rfl, rfl, rfl, rfl, rfl, rfl, hl, hc, rfl⟩
  · have hcv' : cacheValid w = false := by simpa using hcv
    obtain ⟨tf, bd, gr, sf, ch, ct, lh, nw, fn, ac⟩ := w
    simp only at hl
    subst hl
    rcases sf with _ | _ | s
    · rcases ch with _ | c
      · simp [readSyncState, hcv', acquireLock, writeSyncState, releaseLock,
          ReadPres, effState, stateOf, cacheOK]
      · rw [cacheOK] at hc
        simp at hc
    · rcases ch with _ | c
      · simp [readSyncState, hcv', acquireLock, releaseLock,
          ReadPres, effState, stateOf, cacheOK]
      · rw [cacheOK] at hc
        simp at hc
    · rcases ch with _ | c
      · simp [readSyncState, hcv', acquireLock, releaseLock,
          ReadPres, effState, stateOf, cacheOK]
      · simp only [cacheOK, StateFile.good.injEq] at hc
        subst hc
        simp [readSyncState, hcv', acquireLock, releaseLock,
          ReadPres, effState, stateOf, cacheOK]

theorem updateSyncedTimestamp_spec (w : World) (mid tid : String) (ts : Nat)
    (hl : w.lockHeld = false) (hc : cacheOK w) :
    (updateSyncedTimestamp w mid tid ts).1 = .ok () ∧
    WritePres w (updateSyncedTimestamp w mid tid ts).2
      (stampState w.now (updStatePure (effState w) mid tid ts)) := by
  obtain ⟨h1, hp⟩ := readSyncState_spec w hl hc
  unfold updateSyncedTimestamp
  rcases hr : readSyncState w with ⟨r, w1⟩
  rw [hr] at h1 hp
  dsimp only at h1 hp ⊢
  subst h1
  dsimp only
  obtain ⟨e1, e2, e3, e4, e5, e6, e7, e8, e9, e10⟩ := hp
  rw [writeSyncState_spec w1 _ e8]
  refine ⟨rfl, ?_⟩
  rw [WritePres]
  refine ⟨by simpa using e1, by simpa using e2, by simp [e5], by simpa using e4,
    by simpa using e5, by simpa using e6, by simpa using e7, by simpa using e8,
    ?_, by simp [effState, e5]⟩
  simp [cacheOK, e5]

theorem getMondayItemIdsForTask_spec (w : World) (tid : String)
    (hl : w.lockHeld = false) (hc : cacheOK w) :
    (getMondayItemIdsForTask w tid).1 = .ok (mappedIdsPure (effState w) tid) ∧
    ReadPres w (getMondayItemIdsForTask w tid).2 := by
  obtain ⟨h1, hp⟩ := readSyncState_spec w hl hc
  unfold getMondayItemIdsForTask
  rcases hr : readSyncState w with ⟨r, w1⟩
  rw [hr] at h1 hp
  simp only at h1
  subst h1
  exact ⟨rfl, hp⟩

theorem getUpdateIdForTask_spec (w : World) (tid mid : String)
    (hl : w.lockHeld = false) (hc : cacheOK w) :
    (getUpdateIdForTask w tid mid).1 = .ok (updateIdPure (effState w) tid mid) ∧
    ReadPres w (getUpdateIdForTask w tid mid).2 := by
  obtain ⟨h1, hp⟩ := readSyncState_spec w hl hc
  unfold getUpdateIdForTask
  rcases hr : readSyncState w with ⟨r, w1⟩
  rw [hr] at h1 hp
  simp only at h1
  subst h1
  exact ⟨rfl, hp⟩

theorem removeMondayItem_spec (w : World) (mid : String)
    (hl : w.lockHeld = false) (hc : cacheOK w) (hm : mid ≠ "") :
    ∃ b w', removeMondayItem w (some mid) = (.ok b, w') ∧
      w'.tasksFile = w.tasksFile ∧ w'.board = w.board ∧
      w'.groups = w.groups ∧ w'.now = w.now ∧ w'.freshN = w.freshN ∧
      w'.apiCalls = w.apiCalls ∧ w'.lockHeld = false ∧ cacheOK w' := by
  obtain ⟨h1, hp⟩ := readSyncState_spec w hl hc
  unfold removeMondayItem
  rcases hr : readSyncState w with ⟨r, w1⟩
  rw [hr] at h1 hp
  dsimp only at h1 hp ⊢
  subst h1
  dsimp only
  obtain ⟨e1, e2, e3, e4, e5, e6, e7, e8, e9, e10⟩ := hp
  rw [if_neg hm]
  rcases hit : (effState w).items with _ | its
  · exact ⟨false, w1, rfl, e1, e2, e4, e5, e6, e7, e8, e9⟩
  · dsimp only
    rcases hg : alGet? its mid with _ | d
    · exact ⟨false, w1, rfl, e1, e2, e4, e5, e6, e7, e8, e9⟩
    · dsimp only
      rw [writeSyncState_spec w1 _ e8]
      refine ⟨true, _, rfl, by simpa using e1, by simpa using e2,
        by simpa using e4, by simpa using e5, by simpa using e6,
        by simpa using e7, by simpa using e8, ?_⟩
      simp [cacheOK]

theorem readSyncState_persistent (w : World) :
    (readSyncState w).2.tasksFile = w.tasksFile ∧
    (readSyncState w).2.board = w.board ∧
    (readSyncState w).2.stateFile = w.stateFile := by
  by_cases hcv : cacheValid w = true
  · simp [readSyncState, hcv]
  · cases hl : w.lockHeld
    · cases hf : w.stateFile <;>
        simp [readSyncState, hcv, acquireLock, hl, hf, writeSyncState,
          releaseLock]
    · simp [readSyncState, hcv, acquireLock, hl]

/-- `getLastSyncedTimestamp` only reads; the persisted stores are
untouched. -/
theorem getLastSyncedTimestamp_persistent (w : World) (mid : String) :
    (getLastSyncedTimestamp w mid).2.tasksFile = w.tasksFile ∧
    (getLastSyncedTimestamp w mid).2.board = w.board ∧
    (getLastSyncedTimestamp w mid).2.stateFile = w.stateFile := by
  have h := readSyncState_persistent w
  unfold getLastSyncedTimestamp
  rcases hr : readSyncState w with ⟨r, w1⟩
  rw [hr] at h
  rcases r with e | s
  · simpa using h
  · rcases hi : s.items with _ | its
    · simpa [hi] using h
    · rcases hg : alGet? its mid with _ | d <;> simpa [hi, hg] using h

theorem persistSame_self (w : World) : persistSame w w := ⟨rfl, rfl, rfl⟩

theorem persistSame_trans {w1 w2 w3 : World} (h1 : persistSame w1 w2)
    (h2 : persistSame w2 w3) : persistSame w1 w3 := by
  obtain ⟨a1, b1, c1⟩ := h1
  obtain ⟨a2, b2, c2⟩ := h2
  exact ⟨a2.trans a1, b2.trans b1, c2.trans c1⟩

theorem persistSame_bumpCalls (w : World) : persistSame w (bumpCalls w) :=
  ⟨rfl, rfl, rfl⟩

theorem clientGetItems_snd (env : PushEnv) (w : World) :
    (clientGetItems env w).2 = bumpCalls w := by
  unfold clientGetItems apiStep
  rcases env.apiFail w.apiCalls with _ | e <;> rfl

theorem clientGetBoardGroups_snd (env : PushEnv) (w : World) :
    (clientGetBoardGroups env w).2 = bumpCalls w := by
  unfold clientGetBoardGroups apiStep
  rcases env.apiFail w.apiCalls with _ | e <;> rfl

theorem clientGetItem_snd (env : PushEnv) (w : World) (iid : String) :
    (clientGetItem env w iid).2 = bumpCalls w := by
  unfold clientGetItem apiStep
  rcases env.apiFail w.apiCalls with _ | e
  · dsimp only
    split <;> rfl
  · rfl

theorem getValidGroupIds_snd (env : PushEnv) (cfg : PushConfig) (w : World) :
    (getValidGroupIds env cfg w).2 = bumpCalls w := by
  unfold getValidGroupIds
  rcases hg : clientGetBoardGroups env w with ⟨r, w1⟩
  have h1 : w1 = bumpCalls w := by
    have h2 := clientGetBoardGroups_snd env w
    rw [hg] at h2
    exact h2
  subst h1
  rcases r with e | gs
  · rfl
  · dsimp only
    split
    · rfl
    · split <;> rfl

theorem readSyncState_persist (w : World) : persistSame w (readSyncState w).2 :=
  readSyncState_persistent w

theorem getMondayItemIdsForTask_persist (w : World) (tid : String) :
    persistSame w (getMondayItemIdsForTask w tid).2 := by
  have h := readSyncState_persist w
  unfold getMondayItemIdsForTask
  rcases hr : readSyncState w with ⟨r, w1⟩
  rw [hr] at h
  rcases r with e | s <;> exact h

theorem syncTask_dry_persist (env : PushEnv) (cfg : PushConfig) (w : World)
    (t : Task) (gids : List String) :
    persistSame w (syncTask env cfg true w t gids).2 := by
  unfold syncTask
  by_cases hid : t.id = ""
  · rw [if_pos hid]
    exact persistSame_self w
  · rw [if_neg hid]
    have h := getMondayItemIdsForTask_persist w t.id
    rcases hr : getMondayItemIdsForTask w t.id with ⟨r, w1⟩
    rw [hr] at h
    rcases r with e | mids
    · exact h
    · rcases mids with _ | ⟨mid, rest⟩
      · rcases gids with _ | ⟨g, grest⟩
        · exact h
        · exact h
      · exact h

theorem processTaskTail_dry_persist (env : PushEnv) (cfg : PushConfig)
    (gids : List String) (res : PushResults) (t' : Task) (w : World) :
    persistSame w (processTaskTail env cfg true gids res t' w).2 := by
  unfold processTaskTail
  have h := syncTask_dry_persist env cfg w t' gids
  rcases hs : syncTask env cfg true w t' gids with ⟨r2, w2⟩
  rw [hs] at h
  rcases r2 with e2 | r2 <;> exact h

theorem processTask_dry_persist (env : PushEnv) (cfg : PushConfig)
    (gids : List String) (res : PushResults) (w : World) (t : Task) :
    persistSame w (processTask env cfg true gids (res, w) t).2 := by
  unfold processTask
  by_cases hid : t.id = ""
  · rw [if_pos hid]
    exact persistSame_self w
  · rw [if_neg hid]
    dsimp only
    by_cases hmi : strTruthy t.monday_item_id = true
    · rw [if_pos hmi]
      rcases hg : clientGetItems env w with ⟨ri, w1⟩
      have hw1 : w1 = bumpCalls w := by
        have h2 := clientGetItems_snd env w
        rw [hg] at h2
        exact h2
      subst hw1
      rcases ri with e | items
      · exact persistSame_trans (persistSame_bumpCalls w)
          (processTaskTail_dry_persist env cfg gids res t (bumpCalls w))
      · dsimp only
        split
        · exact persistSame_trans (persistSame_bumpCalls w)
            (processTaskTail_dry_persist env cfg gids res
              { t with monday_item_id := none } (bumpCalls w))
        · exact persistSame_trans (persistSame_bumpCalls w)
            (processTaskTail_dry_persist env cfg gids res t (bumpCalls w))
    · rw [if_neg hmi]
      exact processTaskTail_dry_persist env cfg gids res t w

theorem pushLoop_dry_persist (env : PushEnv) (cfg : PushConfig)
    (gids : List String) :
    ∀ (ts : List Task) (res : PushResults) (w : World),
      persistSame w ((ts.foldl (processTask env cfg true gids) (res, w)).2) := by
  intro ts
  induction ts with
  | nil => intro res w; exact persistSame_self w
  | cons t rest ih =>
      intro res w
      rw [List.foldl_cons]
      rcases hp : processTask env cfg true gids (res, w) t with ⟨res1, w1⟩
      have h1 : persistSame w w1 := by
        have h2 := processTask_dry_persist env cfg gids res w t
        rw [hp] at h2
        exact h2
      exact persistSame_trans h1 (ih res1 w1)

theorem handleOrphanedItems_dry_persist (env : PushEnv) (w : World)
    (ts : List Task) (res : PushResults) :
    persistSame w (handleOrphanedItems env true w ts res).2 := by
  have h := readSyncState_persist w
  unfold handleOrphanedItems
  rcases hr : readSyncState w with ⟨r, w1⟩
  rw [hr] at h
  rcases r with e | s
  · exact h
  · dsimp only
    rcases hi : s.items with _ | its
    · exact h
    · exact h

theorem pushSync_dry_persist (env : PushEnv) (cfg : PushConfig)
    (opts : PushOptions) (w : World) (hd : opts.dryRun = true) :
    persistSame w (pushSync env cfg opts w).2 := by
  rcases opts with ⟨dr, del⟩
  simp only at hd
  subst hd
  unfold pushSync
  rcases env.readTasksFail with _ | e
  · dsimp only
    rcases hg : getValidGroupIds env cfg w with ⟨rg, w1⟩
    have hw1 : w1 = bumpCalls w := by
      have h2 := getValidGroupIds_snd env cfg w
      rw [hg] at h2
      exact h2
    subst hw1
    rcases rg with e | gids
    · exact persistSame_bumpCalls w
    · dsimp only
      rcases hout : w.tasksFile.foldl (processTask env cfg true gids)
          (⟨[], [], [], [], [], true⟩, bumpCalls w) with ⟨resL, wL⟩
      have hL : persistSame (bumpCalls w) wL := by
        have h2 := pushLoop_dry_persist env cfg gids w.tasksFile
          ⟨[], [], [], [], [], true⟩ (bumpCalls w)
        rw [hout] at h2
        exact h2
      have hwL := persistSame_trans (persistSame_bumpCalls w) hL
      rcases del with _ | _
      · exact hwL
      · have h3 := handleOrphanedItems_dry_persist env wL w.tasksFile resL
        rcases ho : handleOrphanedItems env true wL w.tasksFile resL with ⟨ro, wo⟩
        rw [ho] at h3
        exact persistSame_trans hwL h3
  · exact persistSame_self w

theorem fetchMondayItems_snd (cfg : PullConfig) (w : World) :
    (fetchMondayItems cfg w).2 = w := by
  unfold fetchMondayItems
  repeat' (first | rfl | split | dsimp only)

theorem compareStep_persist (cfg : PullConfig) (opts : CompareOptions)
    (tasks : List Task) (res : CompareResults) (w : World)
    (item : BoardItem) :
    persistSame w (compareStep cfg opts tasks (res, w) item).2 := by
  have h := getLastSyncedTimestamp_persistent w item.id
  unfold compareStep
  dsimp only
  rcases hg : getLastSyncedTimestamp w item.id with ⟨r, w1⟩
  rw [hg] at h
  have hh : persistSame w w1 := h
  rcases r with e | lastTs
  all_goals
    (dsimp only;
     repeat' split;
     all_goals first
       | exact persistSame_self w
       | exact hh)

theorem compareLoop_persist (cfg : PullConfig) (opts : CompareOptions)
    (tasks : List Task) :
    ∀ (items : List BoardItem) (res : CompareResults) (w : World),
      persistSame w ((items.foldl (compareStep cfg opts tasks) (res, w)).2) := by
  intro items
  induction items with
  | nil => intro res w; exact persistSame_self w
  | cons it rest ih =>
      intro res w
      rw [List.foldl_cons]
      rcases hp : compareStep cfg opts tasks (res, w) it with ⟨res1, w1⟩
      have h1 : persistSame w w1 := by
        have h2 := compareStep_persist cfg opts tasks res w it
        rw [hp] at h2
        exact h2
      exact persistSame_trans h1 (ih res1 w1)

theorem findOrphanedLocalTasks_persist (w : World) (tasks : List Task)
    (items : List BoardItem) :
    persistSame w (findOrphanedLocalTasks w tasks items).2 := by
  have h := readSyncState_persist w
  unfold findOrphanedLocalTasks
  rcases hr : readSyncState w with ⟨r, w1⟩
  rw [hr] at h
  rcases r with e | s <;> exact h

theorem pullSync_dry_persist (cfg : PullConfig) (opts : PullOptions)
    (w : World) (hd : opts.dryRun = true) :
    persistSame w (pullSync cfg opts w).2 := by
  rcases opts with ⟨dr, fo, sc, st, rg, ro, rm⟩
  simp only at hd
  subst hd
  unfold pullSync
  rcases hf : fetchMondayItems cfg w with ⟨rf, w1⟩
  have hw1 : w = w1 := by
    have h2 := fetchMondayItems_snd cfg w
    rw [hf] at h2
    exact h2.symm
  subst hw1
  rcases rf with e | items
  · exact persistSame_self w
  · dsimp only
    rcases hc : compareItemsWithTasks cfg ⟨fo, sc, st, rm⟩ w items w.tasksFile
      with ⟨cres, w2⟩
    have h2 : persistSame w w2 := by
      have h3 := compareLoop_persist cfg ⟨fo, sc, st, rm⟩ w.tasksFile items
        emptyCompareResults w
      rw [compareItemsWithTasks] at hc
      rw [hc] at h3
      exact h3
    rcases ho : findOrphanedLocalTasks w2 w.tasksFile items with ⟨ror, w3⟩
    have h3 : persistSame w2 w3 := by
      have h4 := findOrphanedLocalTasks_persist w2 w.tasksFile items
      rw [ho] at h4
      exact h4
    have h4 := persistSame_trans h2 h3
    rcases ror with e | orphans <;> exact h4

/-- C4 counterexample: over `c4World` (one task whose stored mapping
points at an item no longer on the board) the dry run classifies the
task as updated while the non-dry run reports it as an error, so a
dry-run result does not always carry the classification the non-dry run
would produce. -/
theorem c4_dry_and_nondry_classify_differently :
    c4Class true = some (["7"], []) ∧ c4Class false = some ([], ["7"]) := by
  constructor <;> decide

/-- C4 (amended): the no-mutation half of the claim is universal — any
push run and any pull run invoked with dryRun=true leave the tasks file,
the board and the persisted mapping-state file byte-for-byte unchanged,
whatever the environment, configuration and remaining options. -/
theorem c4_dry_run_leaves_stores_unchanged
    (env : PushEnv) (pcfg : PushConfig) (popts : PushOptions)
    (lcfg : PullConfig) (lopts : PullOptions) (w v : World)
    (hp : popts.dryRun = true) (hl : lopts.dryRun = true) :
    persistSame w (pushSync env pcfg popts w).2 ∧
    persistSame v (pullSync lcfg lopts v).2 :=
  ⟨pushSync_dry_persist env pcfg popts w hp,
   pullSync_dry_persist lcfg lopts v hl⟩

theorem c4_dry_run_leaves_stores_unchanged_witness :
    persistSame c4World
      (pushSync okEnv c4Cfg { dryRun := true, deleteOrphaned := true } c4World).2 ∧
    persistSame c4World (pullSync c4PullCfg c4PullOpts c4World).2 :=
  c4_dry_run_leaves_stores_unchanged okEnv c4Cfg
    { dryRun := true, deleteOrphaned := true } c4PullCfg c4PullOpts
    c4World c4World rfl rfl

theorem cacheOK_congr {w w' : World} (hc : w'.cache = w.cache)
    (hs : w'.stateFile = w.stateFile) (h : cacheOK w) : cacheOK w' := by
  unfold cacheOK at h ⊢
  rw [hc, hs]
  exact h

theorem WInv_of_SMPres {w w' : World} (h : SMPres w w')
    (hl : w.lockHeld = false) (hc : cacheOK w) :
    w'.lockHeld = false ∧ cacheOK w' := by
  obtain ⟨h1, h2, h3⟩ := h
  exact ⟨h1.trans hl, cacheOK_congr h2 h3 hc⟩

theorem clientCreateItem_SMPres (env : PushEnv) (w : World)
    (g n : String) (cv : List (String × ColVal)) :
    SMPres w (clientCreateItem env w g n cv).2 := by
  unfold clientCreateItem apiStep
  rcases env.apiFail w.apiCalls with _ | e <;> exact ⟨rfl, rfl, rfl⟩

theorem clientUpdateItemName_SMPres (env : PushEnv) (w : World)
    (iid nn : String) : SMPres w (clientUpdateItemName env w iid nn).2 := by
  unfold clientUpdateItemName apiStep
  rcases env.apiFail w.apiCalls with _ | e
  · dsimp only
    split <;> exact ⟨rfl, rfl, rfl⟩
  · exact ⟨rfl, rfl, rfl⟩

theorem clientUpdateItemColumnValues_SMPres (env : PushEnv) (w : World)
    (iid : String) (cv : List (String × ColVal)) :
    SMPres w (clientUpdateItemColumnValues env w iid cv).2 := by
  unfold clientUpdateItemColumnValues apiStep
  rcases env.apiFail w.apiCalls with _ | e
  · dsimp only
    split <;> exact ⟨rfl, rfl, rfl⟩
  · exact ⟨rfl, rfl, rfl⟩

theorem clientDeleteItem_SMPres (env : PushEnv) (w : World) (iid : String) :
    SMPres w (clientDeleteItem env w iid).2 := by
  unfold clientDeleteItem apiStep
  rcases env.apiFail w.apiCalls with _ | e
  · dsimp only
    split <;> exact ⟨rfl, rfl, rfl⟩
  · exact ⟨rfl, rfl, rfl⟩

theorem getMondayItemIdsForTask_WInv (w : World) (tid : String)
    (hl : w.lockHeld = false) (hc : cacheOK w) :
    (getMondayItemIdsForTask w tid).2.lockHeld = false ∧
    cacheOK (getMondayItemIdsForTask w tid).2 := by
  obtain ⟨h1, hp⟩ := getMondayItemIdsForTask_spec w tid hl hc
  obtain ⟨_, _, _, _, _, _, _, h8, h9, _⟩ := hp
  exact ⟨h8, h9⟩

theorem getUpdateIdForTask_WInv (w : World) (tid mid : String)
    (hl : w.lockHeld = false) (hc : cacheOK w) :
    (getUpdateIdForTask w tid mid).2.lockHeld = false ∧
    cacheOK (getUpdateIdForTask w tid mid).2 := by
  obtain ⟨h1, hp⟩ := getUpdateIdForTask_spec w tid mid hl hc
  obtain ⟨_, _, _, _, _, _, _, h8, h9, _⟩ := hp
  exact ⟨h8, h9⟩

theorem updateSyncedTimestamp_WInv (w : World) (mid tid : String) (ts : Nat)
    (hl : w.lockHeld = false) (hc : cacheOK w) :
    (updateSyncedTimestamp w mid tid ts).2.lockHeld = false ∧
    cacheOK (updateSyncedTimestamp w mid tid ts).2 := by
  obtain ⟨h1, hp⟩ := updateSyncedTimestamp_spec w mid tid ts hl hc
  obtain ⟨_, _, _, _, _, _, _, h8, h9, _⟩ := hp
  exact ⟨h8, h9⟩

theorem removeMondayItem_WInv (w : World) (x : Option String)
    (hl : w.lockHeld = false) (hc : cacheOK w) :
    (removeMondayItem w x).2.lockHeld = false ∧
    cacheOK (removeMondayItem w x).2 := by
  rcases x with _ | mid
  · exact ⟨hl, hc⟩
  · by_cases hm : mid = ""
    · subst hm
      exact ⟨hl, hc⟩
    · obtain ⟨b, w', hEq, e1, e2, e3, e4, e5, e6, h7, h8⟩ :=
        removeMondayItem_spec w mid hl hc hm
      rw [hEq]
      exact ⟨h7, h8⟩

theorem removeUpdateIdForTask_WInv (w : World) (tid mid : String)
    (hl : w.lockHeld = false) (hc : cacheOK w) :
    (removeUpdateIdForTask w tid mid).2.lockHeld = false ∧
    cacheOK (removeUpdateIdForTask w tid mid).2 := by
  obtain ⟨h1, hp⟩ := readSyncState_spec w hl hc
  unfold removeUpdateIdForTask
  rcases hr : readSyncState w with ⟨r, w1⟩
  rw [hr] at h1 hp
  dsimp only at h1 hp ⊢
  subst h1
  dsimp only
  obtain ⟨e1, e2, e3, e4, e5, e6, e7, e8, e9, e10⟩ := hp
  split
  · exact ⟨e8, e9⟩
  · split
    · exact ⟨e8, e9⟩
    · split
      · rw [writeSyncState_spec w1 _ e8]
        dsimp only
        refine ⟨e8, ?_⟩
        simp [cacheOK]
      · exact ⟨e8, e9⟩

theorem createMondayItem_WInv (env : PushEnv) (cfg : PushConfig) (dr : Bool)
    (w : World) (t : Task) (gid : String)
    (hl : w.lockHeld = false) (hc : cacheOK w) :
    (createMondayItem env cfg dr w t gid).2.lockHeld = false ∧
    cacheOK (createMondayItem env cfg dr w t gid).2 := by
  unfold createMondayItem
  rcases dr
  · dsimp only
    rcases hcc : clientCreateItem env w gid t.title (mapTaskToColumnValues cfg t)
        with ⟨rc, w1⟩
    have hsm := clientCreateItem_SMPres env w gid t.title
      (mapTaskToColumnValues cfg t)
    rw [hcc] at hsm
    obtain ⟨l1, c1⟩ := WInv_of_SMPres hsm hl hc
    rcases rc with e | item
    · exact ⟨l1, c1⟩
    · dsimp only
      rcases hut : updateSyncedTimestamp w1 item.id t.id w1.now with ⟨r2, w2⟩
      have h2 := updateSyncedTimestamp_WInv w1 item.id t.id w1.now l1 c1
      rw [hut] at h2
      rcases r2 with e | u <;> exact h2
  · exact ⟨hl, hc⟩

theorem updateMondayItem_WInv (env : PushEnv) (cfg : PushConfig) (dr : Bool)
    (w : World) (t : Task) (mid : String)
    (hl : w.lockHeld = false) (hc : cacheOK w) :
    (updateMondayItem env cfg dr w t mid).2.lockHeld = false ∧
    cacheOK (updateMondayItem env cfg dr w t mid).2 := by
  unfold updateMondayItem
  rcases dr
  · dsimp only
    rcases hgi : clientGetItem env w mid with ⟨rg, w1⟩
    have hw1 : w1 = bumpCalls w := by
      have h2 := clientGetItem_snd env w mid
      rw [hgi] at h2
      exact h2
    subst hw1
    rcases rg with e | cur
    · exact ⟨hl, hc⟩
    · dsimp only
      rcases hstep : (if cur.name ≠ t.title
          then clientUpdateItemName env (bumpCalls w) mid t.title
          else (.ok cur, bumpCalls w)) with ⟨r1, w2⟩
      have hsm : SMPres (bumpCalls w) w2 := by
        by_cases hnm : cur.name ≠ t.title
        · rw [if_pos hnm] at hstep
          have h2 := clientUpdateItemName_SMPres env (bumpCalls w) mid t.title
          rw [hstep] at h2
          exact h2
        · rw [if_neg hnm] at hstep
          have h2 := congrArg Prod.snd hstep
          dsimp at h2
          rw [← h2]
          exact ⟨rfl, rfl, rfl⟩
      obtain ⟨l2, c2⟩ := WInv_of_SMPres hsm hl hc
      rcases r1 with e | itm
      · exact ⟨l2, c2⟩
      · dsimp only
        rcases huc : clientUpdateItemColumnValues env w2 mid
            (mapTaskToColumnValues cfg t) with ⟨r3, w3⟩
        have hsm3 := clientUpdateItemColumnValues_SMPres env w2 mid
          (mapTaskToColumnValues cfg t)
        rw [huc] at hsm3
        obtain ⟨l3, c3⟩ := WInv_of_SMPres hsm3 l2 c2
        rcases r3 with e | updItem
        · exact ⟨l3, c3⟩
        · dsimp only
          rcases hut : updateSyncedTimestamp w3 mid t.id w3.now with ⟨r4, w4⟩
          have h4 := updateSyncedTimestamp_WInv w3 mid t.id w3.now l3 c3
          rw [hut] at h4
          obtain ⟨l4, c4⟩ := h4
          rcases r4 with e | u4
          · exact ⟨l4, c4⟩
          · dsimp only
            rcases hgu : getUpdateIdForTask w4 t.id mid with ⟨r5, w5⟩
            have h5 := getUpdateIdForTask_WInv w4 t.id mid l4 c4
            rw [hgu] at h5
            obtain ⟨l5, c5⟩ := h5
            rcases r5 with e | uo
            · exact ⟨l5, c5⟩
            · rcases uo with _ | uid
              · exact ⟨l5, c5⟩
              · dsimp only
                simp only [apiStep]
                rcases ha : env.apiFail w5.apiCalls with _ | msg
                · dsimp only
                  rcases hru : removeUpdateIdForTask
                      { w5 with apiCalls := w5.apiCalls + 1 } t.id mid
                      with ⟨rr, w7⟩
                  have h6 := removeUpdateIdForTask_WInv
                    { w5 with apiCalls := w5.apiCalls + 1 } t.id mid l5 c5
                  rw [hru] at h6
                  exact h6
                · exact ⟨l5, c5⟩
  · exact ⟨hl, hc⟩

theorem syncTask_WInv (env : PushEnv) (cfg : PushConfig) (dr : Bool)
    (w : World) (t : Task) (gids : List String)
    (hl : w.lockHeld = false) (hc : cacheOK w) :
    (syncTask env cfg dr w t gids).2.lockHeld = false ∧
    cacheOK (syncTask env cfg dr w t gids).2 := by
  unfold syncTask
  by_cases hid : t.id = ""
  · rw [if_pos hid]
    exact ⟨hl, hc⟩
  · rw [if_neg hid]
    dsimp only
    rcases hm : getMondayItemIdsForTask w t.id with ⟨rm, w1⟩
    have h1 := getMondayItemIdsForTask_WInv w t.id hl hc
    rw [hm] at h1
    obtain ⟨l1, c1⟩ := h1
    rcases rm with e | mids
    · exact ⟨l1, c1⟩
    · dsimp only
      rcases mids with _ | ⟨mid, rest⟩
      · dsimp only
        rcases gids with _ | ⟨g, gr⟩
        · exact ⟨l1, c1⟩
        · dsimp only
          rcases hcr : createMondayItem env cfg dr w1 t g with ⟨rc, w2⟩
          have h2 := createMondayItem_WInv env cfg dr w1 t g l1 c1
          rw [hcr] at h2
          rcases rc with e | item <;> exact h2
      · dsimp only
        rcases hu : updateMondayItem env cfg dr w1 t mid with ⟨ru, w2⟩
        have h2 := updateMondayItem_WInv env cfg dr w1 t mid l1 c1
        rw [hu] at h2
        rcases ru with e | u <;> exact h2

theorem syncTask_action_cases (env : PushEnv) (cfg : PushConfig) (dr : Bool)
    (w : World) (t : Task) (gids : List String) :
    (∃ e w', syncTask env cfg dr w t gids = (.error e, w')) ∨
    (∃ r w', syncTask env cfg dr w t gids = (.ok r, w') ∧
      (r.action = "updated" ∨ r.action = "created" ∨ r.action = "error")) := by
  unfold syncTask
  by_cases hid : t.id = ""
  · rw [if_pos hid]
    exact Or.inl ⟨_, _, rfl⟩
  · rw [if_neg hid]
    dsimp only
    rcases hm : getMondayItemIdsForTask w t.id with ⟨rm, w1⟩
    rcases rm with e | mids
    · exact Or.inr ⟨_, _, rfl, Or.inr (Or.inr rfl)⟩
    · dsimp only
      rcases mids with _ | ⟨mid, rest⟩
      · dsimp only
        rcases gids with _ | ⟨g, gr⟩
        · exact Or.inr ⟨_, _, rfl, Or.inr (Or.inr rfl)⟩
        · dsimp only
          rcases hcr : createMondayItem env cfg dr w1 t g with ⟨rc, w2⟩
          rcases rc with e | item
          · exact Or.inr ⟨_, _, rfl, Or.inr (Or.inr rfl)⟩
          · exact Or.inr ⟨_, _, rfl, Or.inr (Or.inl rfl)⟩
      · dsimp only
        rcases hu : updateMondayItem env cfg dr w1 t mid with ⟨ru, w2⟩
        rcases ru with e | u
        · exact Or.inr ⟨_, _, rfl, Or.inr (Or.inr rfl)⟩
        · exact Or.inr ⟨_, _, rfl, Or.inl rfl⟩

theorem dispatchResults_count (res : PushResults) (tid : String)
    (r : SyncTaskResult)
    (h : r.action = "updated" ∨ r.action = "created" ∨ r.action = "error") :
    pushCount (dispatchResults res tid r) = pushCount res + 1 ∧
    (dispatchResults res tid r).deleted = res.deleted := by
  rcases h with h | h | h <;>
    simp [dispatchResults, h, pushCount] <;> omega

theorem processTaskTail_spec_any (env : PushEnv) (cfg : PushConfig)
    (dr : Bool) (gids : List String) (res : PushResults) (t' : Task)
    (w' : World) (hl : w'.lockHeld = false) (hc : cacheOK w') :
    pushCount (processTaskTail env cfg dr gids res t' w').1 =
      pushCount res + 1 ∧
    (processTaskTail env cfg dr gids res t' w').1.deleted = res.deleted ∧
    (processTaskTail env cfg dr gids res t' w').2.lockHeld = false ∧
    cacheOK (processTaskTail env cfg dr gids res t' w').2 := by
  have hw := syncTask_WInv env cfg dr w' t' gids hl hc
  unfold processTaskTail
  rcases syncTask_action_cases env cfg dr w' t' gids with
    ⟨e, w2, hs⟩ | ⟨r, w2, hs, hact⟩
  · rw [hs] at hw ⊢
    dsimp only
    obtain ⟨hd1, hd2⟩ := dispatchResults_count res t'.id
      ⟨"error", none, none, t'.id, some e⟩ (Or.inr (Or.inr rfl))
    have hcond : (!dr && ((("error" : String) == "created") ||
        (("error" : String) == "recreated"))) = false := by simp
    rw [hcond]
    exact ⟨hd1, hd2, hw.1, hw.2⟩
  · rw [hs] at hw ⊢
    dsimp only
    obtain ⟨hd1, hd2⟩ := dispatchResults_count res t'.id r hact
    rcases hact with ha | ha | ha
    · rw [ha]
      have hcond : (!dr && ((("updated" : String) == "created") ||
          (("updated" : String) == "recreated"))) = false := by simp
      rw [hcond]
      exact ⟨hd1, hd2, hw.1, hw.2⟩
    · rw [ha]
      rcases dr
      · have hcond : (!false && ((("created" : String) == "created") ||
            (("created" : String) == "recreated"))) = true := by simp
        rw [hcond]
        rw [show (clientGetItems env w2).2 = bumpCalls w2 from
          clientGetItems_snd env w2]
        exact ⟨hd1, hd2, hw.1, hw.2⟩
      · have hcond : (!true && ((("created" : String) == "created") ||
            (("created" : String) == "recreated"))) = false := by simp
        rw [hcond]
        exact ⟨hd1, hd2, hw.1, hw.2⟩
    · rw [ha]
      have hcond : (!dr && ((("error" : String) == "created") ||
          (("error" : String) == "recreated"))) = false := by simp
      rw [hcond]
      exact ⟨hd1, hd2, hw.1, hw.2⟩

theorem processTask_spec_any (env : PushEnv) (cfg : PushConfig) (dr : Bool)
    (gids : List String) (res : PushResults) (w : World) (t : Task)
    (hl : w.lockHeld = false) (hc : cacheOK w) :
    pushCount (processTask env cfg dr gids (res, w) t).1 =
      pushCount res + (if t.id = "" then 0 else 1) ∧
    (processTask env cfg dr gids (res, w) t).1.deleted = res.deleted ∧
    (processTask env cfg dr gids (res, w) t).2.lockHeld = false ∧
    cacheOK (processTask env cfg dr gids (res, w) t).2 := by
  unfold processTask
  by_cases hid : t.id = ""
  · rw [if_pos hid, if_pos hid]
    exact ⟨by simp, rfl, hl, hc⟩
  · rw [if_neg hid, if_neg hid]
    dsimp only
    by_cases hmi : strTruthy t.monday_item_id = true
    · rw [if_pos hmi]
      rcases hg : clientGetItems env w with ⟨ri, w1⟩
      have hw1 : w1 = bumpCalls w := by
        have h2 := clientGetItems_snd env w
        rw [hg] at h2
        exact h2
      subst hw1
      have hlb : (bumpCalls w).lockHeld = false := hl
      have hcb : cacheOK (bumpCalls w) := hc
      rcases ri with e | items
      · exact processTaskTail_spec_any env cfg dr gids res t (bumpCalls w) hlb hcb
      · dsimp only
        split
        · rw [show removeMondayItem (bumpCalls w) none =
              (Except.error "Monday item ID is required", bumpCalls w) from rfl]
          exact processTaskTail_spec_any env cfg dr gids res
            { t with monday_item_id := none } (bumpCalls w) hlb hcb
        · exact processTaskTail_spec_any env cfg dr gids res t (bumpCalls w) hlb hcb
    · rw [if_neg hmi]
      exact processTaskTail_spec_any env cfg dr gids res t w hl hc

theorem validCount_cons (t : Task) (ts : List Task) :
    validCount (t :: ts) = (if t.id = "" then 0 else 1) + validCount ts := by
  by_cases hid : t.id = ""
  · simp [validCount, List.filter_cons, hid]
  · simp [validCount, List.filter_cons, hid]
    omega

theorem pushLoop_spec_any (env : PushEnv) (cfg : PushConfig) (dr : Bool)
    (gids : List String) :
    ∀ (ts : List Task) (res : PushResults) (w : World),
      w.lockHeld = false → cacheOK w →
      pushCount ((ts.foldl (processTask env cfg dr gids) (res, w)).1) =
        pushCount res + validCount ts ∧
      ((ts.foldl (processTask env cfg dr gids) (res, w)).1).deleted =
        res.deleted ∧
      ((ts.foldl (processTask env cfg dr gids) (res, w)).2).lockHeld = false ∧
      cacheOK ((ts.foldl (processTask env cfg dr gids) (res, w)).2) := by
  intro ts
  induction ts with
  | nil =>
      intro res w hl hc
      exact ⟨by simp [validCount], rfl, hl, hc⟩
  | cons t rest ih =>
      intro res w hl hc
      rw [List.foldl_cons]
      obtain ⟨hc1, hc2, hc3, hc4⟩ := processTask_spec_any env cfg dr gids res w t hl hc
      rcases hp : processTask env cfg dr gids (res, w) t with ⟨res1, w1⟩
      rw [hp] at hc1 hc2 hc3 hc4
      have hc1' : pushCount res1 = pushCount res + (if t.id = "" then 0 else 1) := hc1
      have hc2' : res1.deleted = res.deleted := hc2
      have hc3' : w1.lockHeld = false := hc3
      have hc4' : cacheOK w1 := hc4
      obtain ⟨ih1, ih2, ih3, ih4⟩ := ih res1 w1 hc3' hc4'
      refine ⟨?_, ?_, ih3, ih4⟩
      · rw [ih1, hc1', validCount_cons]
        omega
      · rw [ih2, hc2']

theorem handleOrphanedItems_ok (env : PushEnv) (dr : Bool) (w : World)
    (ts : List Task) (res : PushResults)
    (hl : w.lockHeld = false) (hc : cacheOK w) :
    ∃ r w', handleOrphanedItems env dr w ts res = (.ok r, w') := by
  obtain ⟨h1, hp⟩ := readSyncState_spec w hl hc
  unfold handleOrphanedItems
  rcases hr : readSyncState w with ⟨r0, w1⟩
  rw [hr] at h1
  dsimp only at h1
  subst h1
  dsimp only
  rcases hi : (effState w).items with _ | its
  · exact ⟨_, _, rfl⟩
  · dsimp only
    rcases dr
    · exact ⟨_, _, rfl⟩
    · exact ⟨_, _, rfl⟩

/-- C5: under a free lock and a coherent cache, the push loop converts
every per-record failure into an `errors` entry and keeps going:
whenever the tasks file is readable and the board/group resolution
succeeds the run returns ok, and (without the orphan phase) the result
carries exactly one outcome — updated, created, recreated or error —
per valid-id record while the `deleted` list stays empty; conversely the
run can only throw the tasks-file read error or the group-resolution
error. -/
theorem c5_per_record_errors_isolated (env : PushEnv) (cfg : PushConfig)
    (opts : PushOptions) (w : World)
    (hl : w.lockHeld = false) (hc : cacheOK w) :
    (env.readTasksFail = none →
      ∀ gids w1, getValidGroupIds env cfg w = (.ok gids, w1) →
      ∃ r w', pushSync env cfg opts w = (.ok r, w') ∧
        (opts.deleteOrphaned = false →
          pushCount r = validCount w.tasksFile ∧ r.deleted = [])) ∧
    (∀ e w', pushSync env cfg opts w = (.error e, w') →
      (∃ e0, env.readTasksFail = some e0 ∧
        e = "Error reading tasks file: " ++ e0) ∨
      (getValidGroupIds env cfg w).1 = .error e) := by
  rcases opts with ⟨dr, del⟩
  unfold pushSync
  rcases hrt : env.readTasksFail with _ | e0
  · dsimp only
    rcases hg : getValidGroupIds env cfg w with ⟨rg, wg⟩
    have hwg : wg = bumpCalls w := by
      have h2 := getValidGroupIds_snd env cfg w
      rw [hg] at h2
      exact h2
    subst hwg
    have hlb : (bumpCalls w).lockHeld = false := hl
    have hcb : cacheOK (bumpCalls w) := hc
    rcases rg with eg | gids
    · constructor
      · intro _ gids' w1' hEq
        exact absurd hEq (by simp)
      · intro e w' hEq
        right
        have h3 := congrArg Prod.fst hEq
        dsimp at h3
        injection h3 with h4
        rw [h4]
    · dsimp only
      obtain ⟨hcnt, hdel, hlL, hcL⟩ := pushLoop_spec_any env cfg dr gids
        w.tasksFile ⟨[], [], [], [], [], dr⟩ (bumpCalls w) hlb hcb
      rcases hout : w.tasksFile.foldl (processTask env cfg dr gids)
          (⟨[], [], [], [], [], dr⟩, bumpCalls w) with ⟨resL, wL⟩
      rw [hout] at hcnt hdel hlL hcL
      have hcnt' : pushCount resL =
          pushCount (⟨[], [], [], [], [], dr⟩ : PushResults) +
            validCount w.tasksFile := hcnt
      have hdel' : resL.deleted = [] := hdel
      have hlL' : wL.lockHeld = false := hlL
      have hcL' : cacheOK wL := hcL
      rcases del
      · constructor
        · intro _ gids' w1' hEq
          refine ⟨resL, wL, rfl, fun _ => ⟨?_, hdel'⟩⟩
          simpa [pushCount] using hcnt'
        · intro e w' hEq
          exact absurd hEq (by simp)
      · obtain ⟨ro, wo, hho⟩ :=
          handleOrphanedItems_ok env dr wL w.tasksFile resL hlL' hcL'
        rw [hho]
        constructor
        · intro _ gids' w1' hEq
          exact ⟨ro, wo, rfl, fun hfd => absurd hfd (by decide)⟩
        · intro e w' hEq
          exact absurd hEq (by simp)
  · constructor
    · intro hnone
      exact absurd hnone (by simp)
    · intro e w' hEq
      left
      have h3 := congrArg Prod.fst hEq
      dsimp at h3
      refine ⟨e0, rfl, ?_⟩
      injection h3 with h4
      exact h4.symm

theorem c5_per_record_errors_isolated_witness :
    ∃ r w', pushSync c5Env c5Cfg { dryRun := false, deleteOrphaned := false }
        c5World = (.ok r, w') ∧
      (({ dryRun := false, deleteOrphaned := false } :
          PushOptions).deleteOrphaned = false →
        pushCount r = validCount c5World.tasksFile ∧ r.deleted = []) :=
  (c5_per_record_errors_isolated c5Env c5Cfg
      { dryRun := false, deleteOrphaned := false } c5World rfl (by decide)).1
    rfl c5World.groups (bumpCalls c5World) (by decide)

theorem effState_congr {w w' : World} (hc : w'.cache = w.cache)
    (hs : w'.stateFile = w.stateFile) : effState w' = effState w := by
  unfold effState stateOf
  rw [hc, hs]

theorem contains_boardIds_iff (b : List BoardItem) (mid : String) :
    ((boardIds b).contains mid) = true ↔ mid ∈ boardIds b := by
  simp

theorem find?_of_mem_boardIds (b : List BoardItem) (mid : String)
    (h : mid ∈ boardIds b) :
    ∃ it, b.find? (fun x => x.id == mid) = some it ∧ it.id = mid := by
  induction b with
  | nil => simp [boardIds] at h
  | cons x xs ih =>
      by_cases hx : x.id = mid
      · refine ⟨x, ?_, hx⟩
        rw [List.find?_cons_of_pos]
        simp [hx]
      · have h' : mid ∈ boardIds xs := by
          rcases List.mem_cons.mp h with h1 | h1
          · exact absurd h1.symm hx
          · exact h1
        obtain ⟨it, hf, hid⟩ := ih h'
        refine ⟨it, ?_, hid⟩
        rw [List.find?_cons_of_neg]
        · exact hf
        · simp [hx]

theorem boardIds_map_of_id (g : BoardItem → BoardItem)
    (hg : ∀ x, (g x).id = x.id) (l : List BoardItem) :
    boardIds (l.map g) = boardIds l := by
  induction l with
  | nil => rfl
  | cons x xs ih =>
      show (g x).id :: boardIds (xs.map g) = x.id :: boardIds xs
      rw [hg x, ih]

theorem itemsOf_upd (s : SyncState) (mid tid : String) (ts n : Nat) :
    itemsOf (stampState n (updStatePure s mid tid ts)) =
      alSet (itemsOf s) mid ⟨tid, ts⟩ := rfl

theorem itemsFilterIds_upd_ne (s : SyncState) (mid tid tidq : String)
    (ts n : Nat) (d : ItemData)
    (hget : alGet? (itemsOf s) mid = some d)
    (hdt : d.taskmasterTaskId = tid) :
    itemsFilterIds (stampState n (updStatePure s mid tid ts)) tidq =
      itemsFilterIds s tidq := by
  unfold itemsFilterIds
  rw [itemsOf_upd]
  exact filter_map_alSet_mem _ _ _ _ _ d hget (by rw [hdt]) (fun _ => rfl)

theorem mappedIdsPure_of_filter (s : SyncState) (tid mid : String)
    (rest : List String) (h : itemsFilterIds s tid = mid :: rest) :
    mappedIdsPure s tid = mid :: rest := by
  unfold itemsFilterIds itemsOf at h
  unfold mappedIdsPure
  rcases hi : s.items with _ | its
  · rw [hi] at h
    simp at h
  · rw [hi] at h
    simp only [Option.getD] at h
    dsimp only
    rw [h]
    simp

theorem noAltIds_replaceFirstMapping (l : List MappingEntry) (mid tid : String)
    (ts : Nat) (h : ∀ m ∈ l, m.taskId = none) :
    ∀ m ∈ replaceFirstMapping l mid tid ts, m.taskId = none := by
  induction l with
  | nil => simp [replaceFirstMapping]
  | cons a rest ih =>
      intro m hm
      rw [replaceFirstMapping] at hm
      by_cases ha : (a.mondayItemId == mid) = true
      · rw [if_pos ha] at hm
        rcases List.mem_cons.mp hm with h1 | h1
        · subst h1
          exact h a (List.mem_cons_self a rest)
        · exact h m (List.mem_cons_of_mem a h1)
      · rw [if_neg ha] at hm
        rcases List.mem_cons.mp hm with h1 | h1
        · rw [h1]
          exact h a (List.mem_cons_self a rest)
        · exact ih (fun m hm => h m (List.mem_cons_of_mem a hm)) m h1

theorem noAltIds_upd (s : SyncState) (mid tid : String) (ts n : Nat)
    (h : noAltIds s) : noAltIds (stampState n (updStatePure s mid tid ts)) := by
  unfold noAltIds at h ⊢
  intro m hm
  have hm' : m ∈ (if (s.taskMappings.find?
        (fun m => m.mondayItemId == mid)).isSome
      then replaceFirstMapping s.taskMappings mid tid ts
      else s.taskMappings ++ [MappingEntry.mk3 mid tid ts]) := hm
  by_cases hf : (s.taskMappings.find? (fun m => m.mondayItemId == mid)).isSome
  · rw [if_pos hf] at hm'
    exact noAltIds_replaceFirstMapping s.taskMappings mid tid ts h m hm'
  · rw [if_neg hf] at hm'
    rcases List.mem_append.mp hm' with h1 | h1
    · exact h m h1
    · simp only [List.mem_singleton] at h1
      subst h1
      rfl

theorem updateIdPure_none_of_noAltIds (s : SyncState) (tid mid : String)
    (h : noAltIds s) : updateIdPure s tid mid = none := by
  unfold updateIdPure
  have hf : s.taskMappings.find?
      (fun m => m.taskId == some tid && m.mondayItemId == mid) = none := by
    rw [List.find?_eq_none]
    intro m hm
    rw [h m hm]
    simp
  rw [hf]

theorem taskMappedB_elim (s : SyncState) (b : List BoardItem) (t : Task)
    (h : taskMappedB s b t = true) :
    ∃ mid rest d, itemsFilterIds s t.id = mid :: rest ∧
      alGet? (itemsOf s) mid = some d ∧ d.taskmasterTaskId = t.id ∧
      mid ∈ boardIds b := by
  unfold taskMappedB at h
  rcases hf : itemsFilterIds s t.id with _ | ⟨mid, rest⟩
  · rw [hf] at h
    simp at h
  · rw [hf] at h
    dsimp only at h
    rcases hg : alGet? (itemsOf s) mid with _ | d
    · rw [hg] at h
      simp at h
    · rw [hg] at h
      simp only [Bool.and_eq_true, beq_iff_eq] at h
      obtain ⟨h1, h2⟩ := h
      exact ⟨mid, rest, d, rfl, hg, h1, (contains_boardIds_iff b mid).mp h2⟩

theorem taskMappedB_after_upd (s : SyncState) (b : List BoardItem)
    (t tq : Task) (mid : String) (d : ItemData) (n ts : Nat)
    (hget : alGet? (itemsOf s) mid = some d)
    (hdt : d.taskmasterTaskId = t.id)
    (hne : tq.id ≠ t.id)
    (hm : taskMappedB s b tq = true) :
    taskMappedB (stampState n (updStatePure s mid t.id ts)) b tq = true := by
  obtain ⟨mid', rest', d', hf', hg', hdt', hb'⟩ := taskMappedB_elim s b tq hm
  have hmidne : mid' ≠ mid := by
    intro he
    rw [he, hget] at hg'
    injection hg' with hdd
    rw [← hdd] at hdt'
    rw [hdt] at hdt'
    exact hne hdt'.symm
  unfold taskMappedB
  rw [itemsFilterIds_upd_ne s mid t.id tq.id ts n d hget hdt, hf']
  dsimp only
  rw [itemsOf_upd, alGet?_alSet_ne _ _ _ _ hmidne, hg']
  dsimp only
  rw [hdt']
  simp [hb']

theorem clientGetItem_okEnv (w : World) (iid : String)
    (hb : iid ∈ boardIds w.board) :
    ∃ it, clientGetItem okEnv w iid = (.ok it, bumpCalls w) ∧ it.id = iid := by
  obtain ⟨it, hf, hid⟩ := find?_of_mem_boardIds w.board iid hb
  refine ⟨it, ?_, hid⟩
  unfold clientGetItem apiStep okEnv
  dsimp only
  rw [hf]
  rfl

theorem clientUpdateItemName_okEnv (w : World) (iid nn : String)
    (hb : iid ∈ boardIds w.board) :
    ∃ u w', clientUpdateItemName okEnv w iid nn = (.ok u, w') ∧
      SMPres w w' ∧ boardIds w'.board = boardIds w.board ∧
      w'.now = w.now ∧ w'.tasksFile = w.tasksFile ∧ w'.groups = w.groups := by
  obtain ⟨it, hf, hid⟩ := find?_of_mem_boardIds w.board iid hb
  unfold clientUpdateItemName apiStep okEnv
  dsimp only
  rw [hf]
  refine ⟨_, _, rfl, ⟨rfl, rfl, rfl⟩, ?_, rfl, rfl, rfl⟩
  exact boardIds_map_of_id _ (fun x => by split <;> rfl) w.board

theorem clientUpdateItemColumnValues_okEnv (w : World) (iid : String)
    (cv : List (String × ColVal)) (hb : iid ∈ boardIds w.board) :
    ∃ u w', clientUpdateItemColumnValues okEnv w iid cv = (.ok u, w') ∧
      u.id = iid ∧ SMPres w w' ∧ boardIds w'.board = boardIds w.board ∧
      w'.now = w.now ∧ w'.tasksFile = w.tasksFile ∧ w'.groups = w.groups := by
  obtain ⟨it, hf, hid⟩ := find?_of_mem_boardIds w.board iid hb
  unfold clientUpdateItemColumnValues apiStep okEnv
  dsimp only
  rw [hf]
  refine ⟨_, _, rfl, hid, ⟨rfl, rfl, rfl⟩, ?_, rfl, rfl, rfl⟩
  exact boardIds_map_of_id _ (fun x => by split <;> rfl) w.board

theorem updateMondayItem_mapped_ok (cfg : PushConfig) (w : World) (t : Task)
    (mid : String)
    (hl : w.lockHeld = false) (hc : cacheOK w)
    (hna : noAltIds (effState w))
    (hb : mid ∈ boardIds w.board) :
    ∃ u w', updateMondayItem okEnv cfg false w t mid = (.ok u, w') ∧
      u.id = mid ∧
      w'.lockHeld = false ∧ cacheOK w' ∧ noAltIds (effState w') ∧
      boardIds w'.board = boardIds w.board ∧
      w'.tasksFile = w.tasksFile ∧ w'.groups = w.groups ∧ w'.now = w.now ∧
      effState w' = stampState w.now (updStatePure (effState w) mid t.id w.now) := by
  obtain ⟨cur, hgi, hcurid⟩ := clientGetItem_okEnv w mid hb
  unfold updateMondayItem
  dsimp only
  rw [hgi]
  dsimp only
  rcases hstep : (if cur.name ≠ t.title
      then clientUpdateItemName okEnv (bumpCalls w) mid t.title
      else (.ok cur, bumpCalls w)) with ⟨r1, w2⟩
  have hstep2 : (∃ v, r1 = .ok v) ∧ SMPres (bumpCalls w) w2 ∧
      boardIds w2.board = boardIds w.board ∧
      w2.now = w.now ∧ w2.tasksFile = w.tasksFile ∧ w2.groups = w.groups := by
    by_cases hnm : cur.name ≠ t.title
    · rw [if_pos hnm] at hstep
      obtain ⟨u1, w2', hEq, hsm, hbi, hnow, htf, hgr⟩ :=
        clientUpdateItemName_okEnv (bumpCalls w) mid t.title hb
      rw [hEq] at hstep
      have h1 := congrArg Prod.fst hstep
      have h2 := congrArg Prod.snd hstep
      dsimp only at h1 h2
      subst h2
      exact ⟨⟨u1, h1.symm⟩, hsm, hbi, hnow, htf, hgr⟩
    · rw [if_neg hnm] at hstep
      have h1 := congrArg Prod.fst hstep
      have h2 := congrArg Prod.snd hstep
      dsimp only at h1 h2
      subst h2
      exact ⟨⟨cur, h1.symm⟩, ⟨rfl, rfl, rfl⟩, rfl, rfl, rfl, rfl⟩
  obtain ⟨⟨v1, hr1⟩, hsm2, hbi2, hnow2, htf2, hgr2⟩ := hstep2
  subst hr1
  dsimp only
  obtain ⟨l2, c2⟩ := WInv_of_SMPres hsm2 hl hc
  have he2 : effState w2 = effState w := effState_congr hsm2.2.1 hsm2.2.2
  have hb2 : mid ∈ boardIds w2.board := by
    rw [hbi2]
    exact hb
  obtain ⟨u3, w3, hEq3, hu3id, hsm3, hbi3, hnow3, htf3, hgr3⟩ :=
    clientUpdateItemColumnValues_okEnv w2 mid (mapTaskToColumnValues cfg t) hb2
  rw [hEq3]
  dsimp only
  obtain ⟨l3, c3⟩ := WInv_of_SMPres hsm3 l2 c2
  have he3 : effState w3 = effState w := by
    rw [effState_congr hsm3.2.1 hsm3.2.2, he2]
  obtain ⟨hok4, hwp4⟩ := updateSyncedTimestamp_spec w3 mid t.id w3.now l3 c3
  rcases hut : updateSyncedTimestamp w3 mid t.id w3.now with ⟨r4, w4⟩
  rw [hut] at hok4 hwp4
  dsimp only at hok4
  subst hok4
  dsimp only
  obtain ⟨p1, p2, p3, p4, p5, p6, p7, p8, p9, p10⟩ := hwp4
  have hna4 : noAltIds (effState w4) := by
    rw [p10, he3]
    exact noAltIds_upd _ _ _ _ _ hna
  obtain ⟨hok5, hrp5⟩ := getUpdateIdForTask_spec w4 t.id mid p8 p9
  rcases hgu : getUpdateIdForTask w4 t.id mid with ⟨r5, w5⟩
  rw [hgu] at hok5 hrp5
  dsimp only at hok5
  subst hok5
  rw [updateIdPure_none_of_noAltIds _ _ _ hna4]
  dsimp only
  obtain ⟨q1, q2, q3, q4, q5, q6, q7, q8, q9, q10⟩ := hrp5
  refine ⟨u3, w5, rfl, hu3id, q8, q9, ?_, ?_, ?_, ?_, ?_, ?_⟩
  · rw [q10]
    exact hna4
  · rw [q2, p2, hbi3, hbi2]
  · rw [q1, p1, htf3, htf2]
  · rw [q4, p4, hgr3, hgr2]
  · rw [q5, p5, hnow3, hnow2]
  · rw [q10, p10, he3]
    have hn3 : w3.now = w.now := by rw [hnow3, hnow2]
    rw [hn3]

theorem processTask_mapped_step (cfg : PushConfig) (gids : List String)
    (res : PushResults) (w : World) (t : Task) (mid : String)
    (rest : List String)
    (hl : w.lockHeld = false) (hc : cacheOK w)
    (hna : noAltIds (effState w))
    (hid : t.id ≠ "") (hmi : t.monday_item_id = none)
    (hfil : itemsFilterIds (effState w) t.id = mid :: rest)
    (hb : mid ∈ boardIds w.board) :
    ∃ w', processTask okEnv cfg false gids (res, w) t =
        ({ res with updated := res.updated ++ [⟨t.id, some mid⟩] }, w') ∧
      w'.lockHeld = false ∧ cacheOK w' ∧ noAltIds (effState w') ∧
      boardIds w'.board = boardIds w.board ∧
      w'.tasksFile = w.tasksFile ∧ w'.groups = w.groups ∧ w'.now = w.now ∧
      effState w' = stampState w.now (updStatePure (effState w) mid t.id w.now) := by
  unfold processTask
  rw [if_neg hid]
  dsimp only
  have hstr : strTruthy t.monday_item_id = false := by rw [hmi]; rfl
  rw [if_neg (by simp [hstr])]
  dsimp only
  unfold processTaskTail
  unfold syncTask
  rw [if_neg hid]
  dsimp only
  obtain ⟨h1g, hp1⟩ := getMondayItemIdsForTask_spec w t.id hl hc
  rcases hgm : getMondayItemIdsForTask w t.id with ⟨rm, w1⟩
  rw [hgm] at h1g hp1
  dsimp only at h1g
  subst h1g
  dsimp only
  rw [mappedIdsPure_of_filter (effState w) t.id mid rest hfil]
  dsimp only
  obtain ⟨q1, q2, q3, q4, q5, q6, q7, q8, q9, q10⟩ := hp1
  obtain ⟨u, w2, hEqU, huid, l2, c2, na2, bi2, tf2, gr2, now2, eff2⟩ :=
    updateMondayItem_mapped_ok cfg w1 t mid q8 q9
      (by rw [q10]; exact hna) (by rw [q2]; exact hb)
  rw [hEqU]
  dsimp only
  have hdisp : dispatchResults res t.id
      ⟨"updated", some u.id, none, t.id, none⟩ =
      { res with updated := res.updated ++ [⟨t.id, some u.id⟩] } := by
    simp [dispatchResults]
  rw [hdisp, huid]
  have hcond : (!false && ((("updated" : String) == "created") ||
      (("updated" : String) == "recreated"))) = false := by simp
  rw [hcond]
  refine ⟨w2, rfl, l2, c2, na2, ?_, ?_, ?_, ?_, ?_⟩
  · rw [bi2, q2]
  · rw [tf2, q1]
  · rw [gr2, q4]
  · rw [now2, q5]
  · rw [eff2, q5, q10]

theorem pushLoop_mapped (cfg : PushConfig) (gids : List String) :
    ∀ (ts : List Task) (res : PushResults) (w : World),
      w.lockHeld = false → cacheOK w → noAltIds (effState w) →
      (ts.map (fun t => t.id)).Nodup →
      (∀ t ∈ ts, t.id ≠ "" ∧ t.monday_item_id = none ∧
        taskMappedB (effState w) w.board t = true) →
      ∃ res' w',
        ts.foldl (processTask okEnv cfg false gids) (res, w) = (res', w') ∧
        res'.created = res.created ∧ res'.recreated = res.recreated ∧
        res'.errors = res.errors ∧ res'.deleted = res.deleted ∧
        res'.updated.map (fun e => e.taskId) =
          res.updated.map (fun e => e.taskId) ++ ts.map (fun t => t.id) := by
  intro ts
  induction ts with
  | nil =>
      intro res w _ _ _ _ _
      exact ⟨res, w, rfl, rfl, rfl, rfl, rfl, by simp⟩
  | cons t rest ih =>
      intro res w hl hc hna hnd hall
      obtain ⟨hid, hmi, hmap⟩ := hall t (List.mem_cons_self t rest)
      obtain ⟨mid, mrest, d, hfil, hget, hdt, hb⟩ :=
        taskMappedB_elim (effState w) w.board t hmap
      obtain ⟨w', hstep, l', c', na', bi', tf', gr', now', eff'⟩ :=
        processTask_mapped_step cfg gids res w t mid mrest hl hc hna hid hmi
          hfil hb
      rw [List.foldl_cons, hstep]
      have hnd' : (rest.map (fun t => t.id)).Nodup := (List.nodup_cons.mp hnd).2
      have hall' : ∀ tq ∈ rest, tq.id ≠ "" ∧ tq.monday_item_id = none ∧
          taskMappedB (effState w') w'.board tq = true := by
        intro tq htq
        obtain ⟨hidq, hmiq, hmapq⟩ := hall tq (List.mem_cons_of_mem t htq)
        refine ⟨hidq, hmiq, ?_⟩
        have hne : tq.id ≠ t.id := by
          intro he
          have hmem : tq.id ∈ rest.map (fun t => t.id) :=
            List.mem_map_of_mem (fun t => t.id) htq
          rw [he] at hmem
          exact (List.nodup_cons.mp hnd).1 hmem
        have hcongr : taskMappedB (effState w') w'.board tq =
            taskMappedB (stampState w.now (updStatePure (effState w) mid t.id
              w.now)) w.board tq := by
          unfold taskMappedB
          rw [eff']
          rw [show boardIds w'.board = boardIds w.board from bi']
        rw [hcongr]
        exact taskMappedB_after_upd (effState w) w.board t tq mid d w.now w.now
          hget hdt hne hmapq
      obtain ⟨res2, w2, hfold, hc1, hc2, hc3, hc4, hc5⟩ :=
        ih { res with updated := res.updated ++ [⟨t.id, some mid⟩] } w'
          l' c' na' hnd' hall'
      refine ⟨res2, w2, hfold, hc1, hc2, hc3, hc4, ?_⟩
      rw [hc5]
      simp

/-- C3 counterexample: over `c3World0` (one task, empty mapping state),
the first push run creates the task's item; running push again with the
tasks file unchanged yields a second run whose created list is empty but
whose updated list contains the task — not the empty updated list the
claim requires (a mapped task is re-pushed unconditionally: the column
values are written and the timestamp refreshed on every run). -/
theorem c3_second_run_updates_instead_of_nothing :
    c3Classified = some ((["1"], []), ([], ["1"])) := by decide

/-- C3 (amended): a second push over an unchanged tasks file reports no
created, recreated, error or deleted entries, and reports every task as
updated — for any world whose state maps each task (with distinct,
non-empty ids and no stale back-references) to an item present on the
board, which is exactly the state a successful first run leaves behind. -/
theorem c3_second_push_updates_every_mapped_task (cfg : PushConfig)
    (w : World)
    (hall : cfg.mondayGroupIds = ["all"])
    (hl : w.lockHeld = false) (hc : cacheOK w)
    (hna : noAltIds (effState w))
    (hnd : (w.tasksFile.map (fun t => t.id)).Nodup)
    (hts : ∀ t ∈ w.tasksFile, t.id ≠ "" ∧ t.monday_item_id = none ∧
      taskMappedB (effState w) w.board t = true) :
    ∃ r w', pushSync okEnv cfg { dryRun := false, deleteOrphaned := false } w =
        (.ok r, w') ∧
      r.created = [] ∧ r.recreated = [] ∧ r.errors = [] ∧ r.deleted = [] ∧
      r.updated.map (fun e => e.taskId) = w.tasksFile.map (fun t => t.id) := by
  unfold pushSync
  rw [show okEnv.readTasksFail = (none : Option String) from rfl]
  dsimp only
  have hgv : getValidGroupIds okEnv cfg w = (.ok w.groups, bumpCalls w) := by
    unfold getValidGroupIds clientGetBoardGroups apiStep okEnv
    dsimp only
    rw [hall]
    rfl
  rw [hgv]
  dsimp only
  obtain ⟨res', w', hfold, hcr, hrc, herr, hdel, hupd⟩ :=
    pushLoop_mapped cfg w.groups w.tasksFile ⟨[], [], [], [], [], false⟩
      (bumpCalls w) hl hc hna hnd hts
  rw [hfold]
  exact ⟨res', w', rfl, by simpa using hcr, by simpa using hrc,
    by simpa using herr, by simpa using hdel, by simpa using hupd⟩

theorem c3_second_push_updates_every_mapped_task_witness :
    (∀ t ∈ c3World1.tasksFile, t.id ≠ "" ∧ t.monday_item_id = none ∧
      taskMappedB (effState c3World1) c3World1.board t = true) ∧
    ∃ r w', pushSync okEnv c3Cfg { dryRun := false, deleteOrphaned := false }
        c3World1 = (.ok r, w') ∧
      r.created = [] ∧ r.recreated = [] ∧ r.errors = [] ∧ r.deleted = [] ∧
      r.updated.map (fun e => e.taskId) =
        c3World1.tasksFile.map (fun t => t.id) :=
  ⟨by decide, c3_second_push_updates_every_mapped_task c3Cfg c3World1 rfl
    (by decide) (by decide) (by decide) (by decide) (by decide)⟩

/-- C2 counterexample: local task 1 (title `Local title`) and its mapped
remote item M1 (name `Remote title`, `updated_at` 9000) both changed
since the stored `lastSyncedAt` 5000, yet a pull run with
forceOverwrite=false, skipConflicts=false and no specific-id filter
classifies the pair as Updated with an empty conflict list — not as
Conflict as the claim states: the conflict branch is unreachable without
`skipConflicts` or a specific-id filter. -/
theorem c2_both_changed_classified_updated_not_conflict :
    c2Classified = some ([], ["1"]) := by
  decide

/-- C2 (amended): for a pair that both changed since its stored
`lastSyncedAt` (truthy timestamp, remote `updated_at` newer, fields
differing), the comparison classifies the pair as Updated whenever
forceOverwrite is set or neither skipConflicts nor a specific-id filter
applies; with skipConflicts set and no filter the pair is classified as
Unchanged (explicitly skipped, nothing overwritten); the Conflict
classification — recorded with a reason and leaving the stores
unmutated — is produced only when a specific-id filter matching the
pair is set with both flags false. -/
theorem c2_conflict_requires_specific_filter
    (cfg : PullConfig) (it : BoardItem) (lt : Task) (tasks : List Task)
    (w w' : World) (ts : Nat) (rec : Bool)
    (hid : (mapItemToTask cfg it).id = lt.id)
    (hne : lt.id ≠ "")
    (hmap : taskMapGet tasks lt.id = some lt)
    (hmmap : ∀ mt', mondayMapGet tasks it.id = some mt' → mt'.id = lt.id)
    (hdiff : tasksAreDifferent lt (mapItemToTask cfg it) = true)
    (hlast : getLastSyncedTimestamp w it.id = (.ok (some ts), w'))
    (hts : ts ≠ 0) (hupd : it.updated_at > ts) :
    (compareItemsWithTasks cfg ⟨false, false, none, rec⟩ w [it] tasks).1
        = { emptyCompareResults with updatedItems := [mapItemToTask cfg it] } ∧
    compareItemsWithTasks cfg ⟨false, false, some lt.id, rec⟩ w [it] tasks
        = ({ emptyCompareResults with conflictItems :=
              [⟨mapItemToTask cfg it, lt,
                "Changes detected both locally and in Monday.com"⟩] }, w') ∧
    (compareItemsWithTasks cfg ⟨true, false, some lt.id, rec⟩ w [it] tasks).1
        = { emptyCompareResults with updatedItems := [mapItemToTask cfg it] } ∧
    (compareItemsWithTasks cfg ⟨false, true, none, rec⟩ w [it] tasks).1
        = { emptyCompareResults with
              unchangedItems := [mapItemToTask cfg it] } ∧
    w'.tasksFile = w.tasksFile ∧ w'.stateFile = w.stateFile ∧
    w'.board = w.board := by
  have hpers := getLastSyncedTimestamp_persistent w it.id
  rw [hlast] at hpers
  refine ⟨?_, ?_, ?_, ?_, hpers.1, hpers.2.2, hpers.2.1⟩ <;>
    rcases hm : mondayMapGet tasks it.id with _ | mt'
  · simp [compareItemsWithTasks, compareStep, hid, hne, strTruthy, hmap,
      hm, hdiff, emptyCompareResults]
  · simp [compareItemsWithTasks, compareStep, hid, hne, strTruthy, hmap,
      hm, hmmap mt' hm, hdiff, emptyCompareResults]
  · simp [compareItemsWithTasks, compareStep, hid, hne, strTruthy, hmap,
      hm, hdiff, hlast, hts, hupd, emptyCompareResults]
  · simp [compareItemsWithTasks, compareStep, hid, hne, strTruthy, hmap,
      hm, hmmap mt' hm, hdiff, hlast, hts, hupd, emptyCompareResults]
  · simp [compareItemsWithTasks, compareStep, hid, hne, strTruthy, hmap,
      hm, hdiff, emptyCompareResults]
  · simp [compareItemsWithTasks, compareStep, hid, hne, strTruthy, hmap,
      hm, hmmap mt' hm, hdiff, emptyCompareResults]
  · simp [compareItemsWithTasks, compareStep, hid, hne, strTruthy, hmap,
      hm, hdiff, hlast, hts, hupd, emptyCompareResults]
  · simp [compareItemsWithTasks, compareStep, hid, hne, strTruthy, hmap,
      hm, hmmap mt' hm, hdiff, hlast, hts, hupd, emptyCompareResults]

theorem c2_conflict_requires_specific_filter_witness :
    (compareItemsWithTasks c2Cfg ⟨false, false, some "1", true⟩ c2World
      [c2Item] [c2Local]).1.conflictItems =
      [⟨mapItemToTask c2Cfg c2Item, c2Local,
        "Changes detected both locally and in Monday.com"⟩] := by
  have h := c2_conflict_requires_specific_filter c2Cfg c2Item c2Local
    [c2Local] c2World c2WorldAfter 5000 true
    (by decide) (by decide) (by decide)
    (fun mt' hm => by
      have hmc : mondayMapGet [c2Local] c2Item.id = some c2Local := by decide
      rw [hmc] at hm
      obtain rfl := Option.some_inj.mp hm
      rfl)
    (by decide) (by decide) (by decide) (by decide)
  have h2 := congrArg (fun p => p.1.conflictItems) h.2.1
  simpa using h2

/-- C1: the claim states that a push run over a record whose mapping
points at a remote item absent from the board reports exactly one
`Recreated{oldRemoteId, newRemoteId}`, no `Created` for that record, and
drops the stale mapping before creating the replacement.  Evaluating the
code at such an input (task 7 mapped to the absent item R7) shows the
intended recreation never happens: `removeMondayItem` is invoked with
the already-nulled back-reference and throws into the swallowing catch,
so the stale mapping survives; `syncTask` then finds the stale mapping,
tries to update the dead item, and the record lands in the error list;
the `recreated` list (whose dispatch branch `syncTask` can never feed)
and the `created` list both stay empty, and no replacement item is
created. -/
theorem c1_stale_mapping_yields_error_not_recreated :
    c1Run.1 = .ok
      { created := [], updated := [], recreated := [], deleted := [],
        errors := [{ taskId := some "7", mondayItemId := none,
                     error := "Item not found: R7" }],
        dryRun := false } ∧
    stateOf c1Run.2 = c1State ∧
    c1Run.2.board = [] := by
  decide

/-- C6: the claim states that after every mutating mapping-store
operation the two derived indexes are exactly recomputable from the
`taskMappings` entry list.  The code violates this: re-binding an
existing Monday item id to a different task via `updateSyncedTimestamp`
updates the entry in place but never removes the item id from the old
task's `taskMasterToMonday` bucket, so after mapping M1 to T1 and then
M1 to T2 the index still answers T1 -> [M1] although no entry binds T1,
and the maintained index differs from the recomputed one. -/
theorem c6_rebinding_diverges_from_recomputed_indexes :
    (updateSyncedTimestamp c6World0 "M1" "T1" 5).1 = .ok () ∧
    (updateSyncedTimestamp c6World1 "M1" "T2" 6).1 = .ok () ∧
    (stateOf c6World2).taskMappings = [MappingEntry.mk3 "M1" "T2" 6] ∧
    alGet? (stateOf c6World2).taskMasterToMonday "T1" = some ["M1"] ∧
    (stateOf c6World2).taskMasterToMonday ≠
      recomputeTaskMasterToMonday (stateOf c6World2).taskMappings := by
  decide

/-- C7: for a missing or unparseable persisted state file, `readSyncState`
does not throw and returns the empty state (version tag, null lastSync,
no mappings).  A missing file leads to an attempted write of a fresh
state, but the nested lock acquisition fails against the already-held
non-reentrant lock and the catch returns the plain empty state; corrupt
content throws in parsing and lands in the same catch. -/
theorem c7_missing_or_corrupt_state_degrades_to_empty (w : World)
    (hc : w.cache = none) (hl : w.lockHeld = false)
    (hf : w.stateFile = .missing ∨ w.stateFile = .corrupt) :
    (readSyncState w).1 = .ok getEmptySyncState := by
  rcases hf with h | h <;>
    simp [readSyncState, cacheValid, hc, h, acquireLock, hl, writeSyncState,
      releaseLock]

theorem c7_missing_or_corrupt_state_degrades_to_empty_witness :
    (readSyncState c7World).1 = .ok getEmptySyncState :=
  c7_missing_or_corrupt_state_degrades_to_empty c7World rfl rfl (Or.inr rfl)

/-- C10: the claim states that `readSyncState` on a missing state file
creates the file on disk, writing a fresh empty state, before returning
it.  Evaluating the code at that input shows otherwise: the attempted
`writeSyncState` cannot re-acquire the non-reentrant lock already held by
the read, the lock timeout error is swallowed, the empty state is
returned, and the file remains absent (the world is returned unchanged,
the transient lock file having been created and removed). -/
theorem c10_read_missing_file_leaves_file_absent :
    (readSyncState c10World).1 = .ok getEmptySyncState ∧
    (readSyncState c10World).2.stateFile = .missing ∧
    (readSyncState c10World).2 = c10World := by
  decide

/-- C9: `executeQuery` performs at most 3 attempts by default, waits
retryDelayMs * 2^k (1000ms then 2000ms by default) after the k-th failed
attempt, returns the response immediately on any successful attempt, and
after exhausting all attempts throws the error of the last attempt. -/
theorem c9_executeQuery_retry_contract :
    (∀ att, (executeQueryDefault att).2.2 ≤ 3) ∧
    (∀ att i r, i < 3 → (∀ j, j < i → attFails att j) →
        attemptOutcome (att i) = .ok r →
        executeQueryDefault att =
          (.ok r, (List.range i).map (fun j => 1000 * 2 ^ j), i + 1)) ∧
    (∀ att, (∀ j, j < 3 → attFails att j) →
        ∃ e, attemptOutcome (att 2) = .error e ∧
          executeQueryDefault att = (.error e, [1000, 2000], 3)) := by
  refine ⟨?_, ?_, ?_⟩
  · intro att
    rcases h0 : attemptOutcome (att 0) with e0 | r0 <;>
      rcases h1 : attemptOutcome (att 1) with e1 | r1 <;>
        rcases h2 : attemptOutcome (att 2) with e2 | r2 <;>
          simp [executeQueryDefault, executeQuery, executeQueryGo, h0, h1, h2]
  · intro att i r hi hf hs
    interval_cases i
    · simp [executeQueryDefault, executeQuery, executeQueryGo, hs]
    · obtain ⟨e0, h0⟩ := hf 0 (by omega)
      simp [executeQueryDefault, executeQuery, executeQueryGo, h0, hs,
        List.range_succ]
    · obtain ⟨e0, h0⟩ := hf 0 (by omega)
      obtain ⟨e1, h1⟩ := hf 1 (by omega)
      simp [executeQueryDefault, executeQuery, executeQueryGo, h0, h1, hs,
        List.range_succ]
  · intro att hf
    obtain ⟨e0, h0⟩ := hf 0 (by omega)
    obtain ⟨e1, h1⟩ := hf 1 (by omega)
    obtain ⟨e2, h2⟩ := hf 2 (by omega)
    exact ⟨e2, h2, by
      simp [executeQueryDefault, executeQuery, executeQueryGo, h0, h1, h2]⟩

theorem c9_executeQuery_retry_contract_witness :
    executeQueryDefault c9Att = (.ok ⟨some [], []⟩, [1000], 2) := by
  have h := c9_executeQuery_retry_contract.2.1 c9Att 1 ⟨some [], []⟩
    (by omega)
    (fun j hj => by
      interval_cases j
      exact ⟨"transient network failure", rfl⟩)
    (by decide)
  simpa using h

/-- C8: when the single combined round trip issued by `flushBatch` fails,
every handle in that batch is rejected with that same error and no handle
resolves. -/
theorem c8_flush_failure_rejects_every_handle
    (att : Nat → Except String ApiResp) (queue : List BatchOp) (e : String)
    (hq : queue ≠ [])
    (hf : (executeQuery 3 1000 att).1 = .error e) :
    (flushBatch att queue).1 =
      queue.map (fun op => (op.index, (.error e : Except String (Option String)))) ∧
    ∀ p ∈ (flushBatch att queue).1, ∀ v, p.2 ≠ Except.ok v := by
  have hne : queue.isEmpty = false := by
    simpa [List.isEmpty_iff] using hq
  constructor
  · simp [flushBatch, hne, hf]
  · intro p hp v
    simp [flushBatch, hne, hf] at hp
    obtain ⟨op, _, rfl⟩ := hp
    simp

theorem c8_flush_failure_rejects_every_handle_witness :
    (flushBatch c8Att c8Queue).1 =
      [(0, .error "rate limited"), (1, .error "rate limited")] := by
  have h := c8_flush_failure_rejects_every_handle c8Att c8Queue "rate limited"
    (by decide) (by decide)
  rw [h.1]
  decide

end TMSync
